import Mathlib

/-!
Verification of the sales_data_analysis pipeline (src/data_cleaning.py,
src/main.py, src/data_visualization.py) over a shallow embedding.

A pandas DataFrame is modelled as a `Table`: a list of column names and a
row-major list of cells.  Cells are `Value`s: missing values (NaN/NaT) are
`Value.null`, strings are `Value.str`, float64 numbers are modelled as
rationals `Value.num`, and datetime64 values as `Value.date` (day
granularity, which is what the pipeline uses).  Fallible operations return
`Except`/`Option`; a Python exception escaping a function is an `Except.error`
of the corresponding condition.
-/

deriving instance DecidableEq for Except

/-- A calendar date, modelling a pandas Timestamp at day granularity. -/
structure CalDate where
  year : Nat
  month : Nat
  day : Nat
  deriving DecidableEq

/-- One DataFrame cell. -/
inductive Value where
  | null : Value
  | str : String → Value
  | num : ℚ → Value
  | date : CalDate → Value
  deriving DecidableEq

/-- A pandas DataFrame: named columns and row-major cells. -/
structure Table where
  cols : List String
  rows : List (List Value)
  deriving DecidableEq

/-- Index of a named column (first match, as in pandas with unique labels). -/
def Table.colIdx (t : Table) (c : String) : Option Nat :=
  t.cols.findIdx? (fun x => decide (x = c))

/-- The cells of column number `i`, top to bottom. -/
def valsAt (t : Table) (i : Nat) : List Value :=
  t.rows.map (fun r => r.getD i Value.null)

/-- The cells of a named column, if the column exists. -/
def Table.getColVals (t : Table) (c : String) : Option (List Value) :=
  (t.colIdx c).map (fun i => valsAt t i)

/-- Every row matches the header width (pandas frames are rectangular). -/
def Table.Rect (t : Table) : Prop := ∀ r ∈ t.rows, r.length = t.cols.length

/-! ## Cleaner: clean_data -/

/-- Error taxonomy of the cleaning stage: KeyError on a missing column. -/
inductive CleanError
  | missingColumn
  deriving DecidableEq

/-- Projection of one row after dropping the columns named in `cs`. -/
def projRow (cols cs : List String) (r : List Value) : List Value :=
  ((cols.zip r).filter (fun p => decide (p.fst ∉ cs))).map Prod.snd

/-- `df.drop(columns=cs)`: removes the named columns, raising (KeyError,
i.e. the MissingColumn condition) when any name is absent. -/
def dropColumns (t : Table) (cs : List String) : Except CleanError Table :=
  if cs.all (fun c => decide (c ∈ t.cols)) then
    Except.ok ⟨t.cols.filter (fun c => decide (c ∉ cs)), t.rows.map (projRow t.cols cs)⟩
  else Except.error CleanError.missingColumn

def rowHasNull (r : List Value) : Bool := r.any (fun v => decide (v = Value.null))

/-- `df.dropna()`: drop every row containing at least one null. -/
def dropNaRows (t : Table) : Table :=
  ⟨t.cols, t.rows.filter (fun r => !rowHasNull r)⟩

/-- `df.drop_duplicates()`: keep the first occurrence of each row (pandas
treats NaNs as equal when comparing rows, as does `Value.null` here). -/
def dedupKeepFirst : List (List Value) → List (List Value)
  | [] => []
  | r :: rs => r :: (dedupKeepFirst rs).filter (fun x => decide (x ≠ r))

def dropDupRows (t : Table) : Table := ⟨t.cols, dedupKeepFirst t.rows⟩

/-- The `drop_na` / `drop_duplicates` tail of `clean_data`. -/
def cleanFlags (t : Table) (drop_na drop_duplicates : Bool) : Table :=
  let t2 := if drop_na then dropNaRows t else t
  if drop_duplicates then dropDupRows t2 else t2

/-- `clean_data` from src/data_cleaning.py.  `if columns_to_drop:` is Python
truthiness, so `None` and the empty list both skip the drop step; the three
steps run in the fixed order drop columns → dropna → drop_duplicates. -/
def clean_data (df : Table) (columns_to_drop : Option (List String))
    (drop_na drop_duplicates : Bool) : Except CleanError Table :=
  match columns_to_drop with
  | none => Except.ok (cleanFlags df drop_na drop_duplicates)
  | some cs =>
    if cs.isEmpty then Except.ok (cleanFlags df drop_na drop_duplicates)
    else
      match dropColumns df cs with
      | Except.error e => Except.error e
      | Except.ok t1 => Except.ok (cleanFlags t1 drop_na drop_duplicates)

example :
    clean_data ⟨["A", "B"], [[Value.num 1, Value.num 2], [Value.num 1, Value.num 3]]⟩
      (some ["B"]) true true = Except.ok ⟨["A"], [[Value.num 1]]⟩ := by decide

example :
    clean_data ⟨["A"], []⟩ (some ["C"]) false false =
      Except.error CleanError.missingColumn := by decide

/-! ## Column Deriver: add_new_column -/

/-- Error taxonomy of the deriving stage: the pre-check ValueError on a name
collision (DuplicateColumn), and any exception raised by the row function
(ComputationError). -/
inductive AddColError
  | duplicateColumn
  | computationError
  deriving DecidableEq

/-- A row-computation function: sees the column names and one row of cells;
`none` models the function raising. -/
abbrev RowFn := List String → List Value → Option Value

/-- `df.apply(f, axis=1)` followed by assignment of the results as a new
last column; `none` when the function raises on some row. -/
def applyRowFn (cols : List String) (f : RowFn) : List (List Value) → Option (List (List Value))
  | [] => some []
  | r :: rs =>
    match f cols r, applyRowFn cols f rs with
    | some v, some rest => some ((r ++ [v]) :: rest)
    | _, _ => none

/-- `add_new_column` from src/data_cleaning.py: the duplicate-name check runs
before `df.apply`, so the computation function is never invoked when the
name already exists. -/
def add_new_column (df : Table) (new_column_name : String) (column_computation_func : RowFn) :
    Except AddColError Table :=
  if new_column_name ∈ df.cols then Except.error AddColError.duplicateColumn
  else
    match applyRowFn df.cols column_computation_func df.rows with
    | none => Except.error AddColError.computationError
    | some rows2 => Except.ok ⟨df.cols ++ [new_column_name], rows2⟩

/-! ## Column Deriver: discount_percentage_calc (src/main.py) -/

/-- `row[c]` on a pandas row: the cell under the first column named `c`. -/
def rowLookup (cols : List String) (r : List Value) (c : String) : Option Value :=
  ((cols.zip r).find? (fun p => decide (p.fst = c))).map Prod.snd

/-- A numeric cell as a rational; non-numeric cells make arithmetic raise. -/
def valueAsNum : Value → Option ℚ
  | Value.num q => some q
  | _ => none

/-- `discount_percentage_calc` from src/main.py, applied per row via
`df.apply(..., axis=1)`: `((MSRP - PRICEEACH) / MSRP) * 100` when
`MSRP > PRICEEACH`, else `0`.  Only the two named cells are read. -/
def discount_percentage_calc (cols : List String) (r : List Value) : Option Value :=
  match (rowLookup cols r "MSRP").bind valueAsNum,
        (rowLookup cols r "PRICEEACH").bind valueAsNum with
  | some msrp, some priceeach =>
    some (Value.num (if priceeach < msrp then (msrp - priceeach) / msrp * 100 else 0))
  | _, _ => none

example :
    discount_percentage_calc ["MSRP", "PRICEEACH"] [Value.num 100, Value.num 75] =
      some (Value.num 25) := by
  norm_num +decide [discount_percentage_calc, rowLookup, valueAsNum, List.find?]

/-! ## Type Converter: convert_to_datetime

`pd.to_datetime(..., format=fmt, errors="raise")` is modelled at the value
level for the dash-separated year-month-day format used by the spec's
round-trip example.  A string parses when it splits on the dash into three
digit groups naming a valid Gregorian calendar date inside the pandas
Timestamp range (1678..2261 kept conservatively inside the ns-resolution
bounds); `"2023-02-30"` has no 30th day in February, so it does not parse. -/

def digitVal (c : Char) : Nat := c.toNat - 48

def parseNatChars (cs : List Char) : Option Nat :=
  if !cs.isEmpty && cs.all Char.isDigit then
    some (cs.foldl (fun a c => 10 * a + digitVal c) 0)
  else none

/-- Split a character list on the dash separator. -/
def splitDash : List Char → List (List Char)
  | [] => [[]]
  | c :: rest =>
    if c = '-' then [] :: splitDash rest
    else
      match splitDash rest with
      | [] => [[c]]
      | g :: gs => (c :: g) :: gs

def isLeapYear (y : Nat) : Bool :=
  (decide (y % 4 = 0) && !decide (y % 100 = 0)) || decide (y % 400 = 0)

def daysInMonth (y m : Nat) : Nat :=
  if m = 2 then (if isLeapYear y then 29 else 28)
  else if m = 4 ∨ m = 6 ∨ m = 9 ∨ m = 11 then 30
  else 31

def validYMD (y m d : Nat) : Bool :=
  decide (1678 ≤ y) && decide (y ≤ 2261) && decide (1 ≤ m) && decide (m ≤ 12) &&
  decide (1 ≤ d) && decide (d ≤ daysInMonth y m)

def parseDateChars (cs : List Char) : Option CalDate :=
  match splitDash cs with
  | [ys, ms, ds] =>
    match parseNatChars ys, parseNatChars ms, parseNatChars ds with
    | some y, some m, some d => if validYMD y m d then some ⟨y, m, d⟩ else none
    | _, _, _ => none
  | _ => none

def parseDate (s : String) : Option CalDate := parseDateChars s.data

def digitChar (k : Nat) : Char :=
  match k with
  | 0 => '0'
  | 1 => '1'
  | 2 => '2'
  | 3 => '3'
  | 4 => '4'
  | 5 => '5'
  | 6 => '6'
  | 7 => '7'
  | 8 => '8'
  | _ => '9'

def pad2 (n : Nat) : List Char := [digitChar (n / 10 % 10), digitChar (n % 10)]

def pad4 (n : Nat) : List Char :=
  [digitChar (n / 1000 % 10), digitChar (n / 100 % 10), digitChar (n / 10 % 10), digitChar (n % 10)]

def formatDateChars (d : CalDate) : List Char :=
  pad4 d.year ++ '-' :: pad2 d.month ++ '-' :: pad2 d.day

/-- Rendering a date back in the same dash-separated format. -/
def formatDate (d : CalDate) : String := String.mk (formatDateChars d)

/-- Error taxonomy of the converting stage: KeyError on a missing column
propagates as MissingColumn; a ValueError from parsing is re-raised as the
ConversionError condition. -/
inductive ConvError
  | missingColumn
  | conversionError
  deriving DecidableEq

/-- Element conversion of `pd.to_datetime`: datetimes pass through, NaN maps
to NaT without raising, and strings must parse. -/
def cellToDatetime : Value → Option Value
  | Value.null => some Value.null
  | Value.date d => some (Value.date d)
  | Value.str s => (parseDate s).map Value.date
  | Value.num _ => none

/-- Convert column `i` in every row; `none` as soon as any cell fails, so
nothing is written back in that case (no partial conversion). -/
def convertRows (i : Nat) : List (List Value) → Option (List (List Value))
  | [] => some []
  | r :: rs =>
    match cellToDatetime (r.getD i Value.null), convertRows i rs with
    | some v, some rest => some (r.set i v :: rest)
    | _, _ => none

/-- `convert_to_datetime` from src/data_cleaning.py. -/
def convert_to_datetime (df : Table) (column_name : String) : Except ConvError Table :=
  match df.colIdx column_name with
  | none => Except.error ConvError.missingColumn
  | some i =>
    match convertRows i df.rows with
    | none => Except.error ConvError.conversionError
    | some rows2 => Except.ok ⟨df.cols, rows2⟩

example : parseDate "2023-02-30" = none := by decide

example : parseDate "2023-02-28" = some ⟨2023, 2, 28⟩ := by decide

example :
    convert_to_datetime ⟨["D"], [[Value.str "2023-02-30"]]⟩ "D" =
      Except.error ConvError.conversionError := by decide

/-! ## Cleaner: clean_extra_spaces

`df[c].str.strip().replace(regex whitespace-run, single space, regex=True)`
on every object-dtype column: strip leading and trailing whitespace, then
collapse every internal whitespace run to one space. -/

/-- The whitespace class of str.strip / the regex backslash-s. -/
def isSpaceChar (c : Char) : Bool :=
  decide (c = ' ') || decide (c = '\t') || decide (c = '\n') || decide (c = '\r') ||
  decide (c = '\x0b') || decide (c = '\x0c')

/-- Remove trailing whitespace. -/
def stripTrail : List Char → List Char
  | [] => []
  | c :: rest =>
    match stripTrail rest with
    | [] => if isSpaceChar c then [] else [c]
    | r1 => c :: r1

/-- `str.strip()`: drop leading then trailing whitespace. -/
def stripChars (l : List Char) : List Char := stripTrail (l.dropWhile isSpaceChar)

/-- Regex substitution of every whitespace run by one space; the flag records
whether the previous character was part of a run already replaced. -/
def collapseAux : Bool → List Char → List Char
  | _, [] => []
  | prevSpace, c :: rest =>
    if isSpaceChar c then
      if prevSpace then collapseAux true rest
      else ' ' :: collapseAux true rest
    else c :: collapseAux false rest

def collapseChars (l : List Char) : List Char := collapseAux false l

/-- One string cell after strip-then-collapse. -/
def normalizeStr (s : String) : String := String.mk (collapseChars (stripChars s.data))

/-- Is the cell a Python str?  A pandas column is object dtype exactly when
it holds at least one such cell. -/
def isStrVal : Value → Bool
  | Value.str _ => true
  | _ => false

def isObjectCol (vals : List Value) : Bool := vals.any isStrVal

/-- The `.str` accessor on one cell: strings are normalized, every other
value of an object column becomes NaN. -/
def stripCellValue : Value → Value
  | Value.str s => Value.str (normalizeStr s)
  | _ => Value.null

/-- Which column positions are object (string) dtype. -/
def objectFlags (t : Table) : List Bool :=
  (List.range t.cols.length).map (fun i => isObjectCol (valsAt t i))

/-- Apply the per-cell cleaning to the flagged positions of one row. -/
def applyFlagsRow : List Bool → List Value → List Value
  | f :: fs, v :: vs => (if f then stripCellValue v else v) :: applyFlagsRow fs vs
  | _, vs => vs

/-- `clean_extra_spaces` from src/data_cleaning.py. -/
def clean_extra_spaces (df : Table) : Table :=
  ⟨df.cols, df.rows.map (fun r => applyFlagsRow (objectFlags df) r)⟩

example :
    clean_extra_spaces ⟨["A", "N"], [[Value.str "  a   b ", Value.num 3]]⟩ =
      ⟨["A", "N"], [[Value.str "a b", Value.num 3]]⟩ := by decide

/-! ## Chart Builders: shared aggregation helpers

pandas `groupby(...).agg(...)` over key/value pairs.  Group keys are listed
in first-occurrence order (pandas sorts them; no claim below depends on the
key order of an aggregated frame). -/

/-- The distinct keys of a list, first occurrence first. -/
def firstKeys {κ : Type} [DecidableEq κ] : List κ → List κ
  | [] => []
  | k :: ks => k :: (firstKeys ks).filter (fun x => decide (x ≠ k))

/-- groupby-sum over (key, value) pairs. -/
def sumBy {κ : Type} [DecidableEq κ] (l : List (κ × ℚ)) : List (κ × ℚ) :=
  (firstKeys (l.map Prod.fst)).map (fun k =>
    (k, ((l.filter (fun p => decide (p.fst = k))).map Prod.snd).sum))

/-- groupby-mean over (key, value) pairs (groups are nonempty). -/
def meanBy {κ : Type} [DecidableEq κ] (l : List (κ × ℚ)) : List (κ × ℚ) :=
  (firstKeys (l.map Prod.fst)).map (fun k =>
    let g := (l.filter (fun p => decide (p.fst = k))).map Prod.snd
    (k, g.sum / (g.length : ℚ)))

/-- groupby-size over keys. -/
def countBy {κ : Type} [DecidableEq κ] (l : List κ) : List (κ × Nat) :=
  (firstKeys l).map (fun k => (k, (l.filter (fun x => decide (x = k))).length))

/-- A whole column as rationals; `none` models the numeric operation raising
on a non-numeric cell. -/
def valuesAsQ : List Value → Option (List ℚ)
  | [] => some []
  | v :: vs =>
    match valueAsNum v, valuesAsQ vs with
    | some q, some qs => some (q :: qs)
    | _, _ => none

/-- A whole column as datetimes (date arithmetic needs every cell set). -/
def valuesAsDates : List Value → Option (List CalDate)
  | [] => some []
  | Value.date d :: vs =>
    match valuesAsDates vs with
    | some ds => some (d :: ds)
    | none => none
  | _ :: _ => none

/-- `pd.to_datetime` over a column inside a builder (no format: inference,
modelled by the same dash-separated parser). -/
def parseDateVals : List Value → Option (List Value)
  | [] => some []
  | v :: vs =>
    match cellToDatetime v, parseDateVals vs with
    | some w, some ws => some (w :: ws)
    | _, _ => none

def quarterOf (m : Nat) : Nat := (m - 1) / 3 + 1

/-- `.dt.to_period(tp).astype(str)` on one datetime, for the four
granularities the docstrings allow; any other string raises. -/
def periodStr (tp : String) (d : CalDate) : Option String :=
  if tp = "Y" then some (String.mk (pad4 d.year))
  else if tp = "Q" then some (String.mk (pad4 d.year ++ ['Q', digitChar (quarterOf d.month)]))
  else if tp = "M" then some (String.mk (pad4 d.year ++ '-' :: pad2 d.month))
  else if tp = "D" then some (String.mk (formatDateChars d))
  else none

/-- The same on a converted cell: NaT renders as the string NaT. -/
def periodOfValue (tp : String) (v : Value) : Option String :=
  match v with
  | Value.date d => periodStr tp d
  | Value.null => some "NaT"
  | _ => none

def periodsOf (tp : String) : List Value → Option (List String)
  | [] => some []
  | v :: vs =>
    match periodOfValue tp v, periodsOf tp vs with
    | some s, some ss => some (s :: ss)
    | _, _ => none

/-- In-place assignment `df[c] = vals` to an existing column position. -/
def setColVals (t : Table) (i : Nat) (vals : List Value) : Table :=
  ⟨t.cols, (t.rows.zip vals).map (fun p => p.fst.set i p.snd)⟩

/-- `df[c] = vals`: overwrite the column when present, else append it. -/
def setOrAppendCol (t : Table) (c : String) (vals : List Value) : Table :=
  match t.colIdx c with
  | some i => setColVals t i vals
  | none => ⟨t.cols ++ [c], (t.rows.zip vals).map (fun p => p.fst ++ [p.snd])⟩

/-- Insertion into a list sorted by descending second component. -/
def insertDescBySnd {κ : Type} (x : κ × ℚ) : List (κ × ℚ) → List (κ × ℚ)
  | [] => [x]
  | y :: ys => if y.snd < x.snd then x :: y :: ys else y :: insertDescBySnd x ys

/-- `sort_values(by=value, ascending=False)`.  pandas quicksort is not
stable; only tie order can differ, and no claim depends on tie order. -/
def sortDescBySnd {κ : Type} (l : List (κ × ℚ)) : List (κ × ℚ) :=
  l.foldr insertDescBySnd []

/-- Days since the proleptic epoch, for Timestamp subtraction `.days`. -/
def leapsBefore (y : Nat) : Nat := y / 4 - y / 100 + y / 400

def daysBeforeMonth (y m : Nat) : Nat :=
  (match m with
   | 1 => 0
   | 2 => 31
   | 3 => 59
   | 4 => 90
   | 5 => 120
   | 6 => 151
   | 7 => 181
   | 8 => 212
   | 9 => 243
   | 10 => 273
   | 11 => 304
   | _ => 334) +
  (if isLeapYear y ∧ 3 ≤ m then 1 else 0)

def dateOrdinal (d : CalDate) : Nat :=
  365 * (d.year - 1) + leapsBefore (d.year - 1) + daysBeforeMonth d.year d.month + d.day

/-- Modelled from pycountry.countries.lookup(name).alpha_3 for names seen in
the dataset; a name the lookup cannot resolve yields none (the row is then
absent from the choropleth's point set but still in the bar chart). -/
def isoOf : Value → Option String
  | Value.str "USA" => some "USA"
  | Value.str "France" => some "FRA"
  | Value.str "Germany" => some "DEU"
  | Value.str "Australia" => some "AUS"
  | Value.str "Spain" => some "ESP"
  | _ => none

/-- `pd.cut` on a natural value against increasing bin edges with labels:
the label of the first interval (lo, hi] containing the value, NaN (none)
when the value lies outside every bin. -/
def cutLabelNat : List Nat → List String → Nat → Option String
  | e1 :: e2 :: es, lab :: labs, v =>
    if decide (e1 < v) && decide (v ≤ e2) then some lab
    else cutLabelNat (e2 :: es) labs v
  | _, _, _ => none

def cutLabelQ : List ℚ → List String → ℚ → Option String
  | e1 :: e2 :: es, lab :: labs, v =>
    if decide (e1 < v) && decide (v ≤ e2) then some lab
    else cutLabelQ (e2 :: es) labs v
  | _, _, _ => none

/-- value_counts over cut labels, reported per label (label order; pandas
orders by count, which no claim depends on). -/
def labelCounts (labels : List String) (assigned : List (Option String)) : List (String × Nat) :=
  labels.map (fun lab => (lab, (assigned.filter (fun a => decide (a = some lab))).length))

def maxQ (l : List ℚ) : ℚ := l.foldl (fun a b => if a < b then b else a) 0

def maxNat (l : List Nat) : Nat := l.foldl Nat.max 0

/-- Quick association lookup into an aggregated frame. -/
def lookupQ (l : List (Value × ℚ)) (k : Value) : ℚ :=
  (((l.find? (fun p => decide (p.fst = k))).map Prod.snd).getD 0)

/-! ## Chart Builders (src/data_visualization.py)

Each figure is modelled by the aggregated data it renders (axis titles,
palettes and hover templates are plotting-library cosmetics).  Each builder
returns the optional figure(s) together with the caller's table after the
call, so the in-place column assignments of plot_total_sales and
plot_top_products are observable.  A Python builder that catches an
exception (including the bare `raise` after a failed column check) returns
None; that is `(none, t)` here. -/

inductive Fig
  | totalSalesLine (pts : List (String × ℚ))
  | regionalBars (rows : List ((Value × Value) × ℚ))
  | regionalMap (rows : List (Value × ℚ × Option String))
  | topProductsBar (rows : List ((Value × Value × String) × ℚ))
  | msrpHistogram (rows : List ((Value × Value) × ℚ))
  | msrpScatter (rows : List ((Value × Value) × ℚ))
  | priceTypeScatter (rows : List (Value × String × ℚ))
  | priceQuantityFigure (rows : List (Value × ℚ × ℚ × String × ℚ))
  | discountLines (rows : List ((Value × Value) × Option ℚ))
  | dealsizeArea (rows : List ((Value × Value) × Nat))
  | rfmScatter3d (rows : List (Value × Nat × Nat × ℚ))
  | rfmPie (slices : List (String × Nat))
  deriving DecidableEq

/-- plot_total_sales: validates the two named columns, converts the date
column in place, assigns the selected_time_period helper column in place,
then sums sales per period.  (Summing a non-numeric sales column is
modelled as failure; pandas would concatenate strings, which no claim
exercises.) -/
def plot_total_sales (df : Table) (date_column sales_column time_period : String) :
    Option Fig × Table :=
  match df.colIdx date_column, df.colIdx sales_column with
  | some di, some si =>
    match parseDateVals (valsAt df di) with
    | none => (none, df)
    | some dvals =>
      let t1 := setColVals df di dvals
      match periodsOf time_period dvals with
      | none => (none, t1)
      | some periods =>
        let t2 := setOrAppendCol t1 "selected_time_period" (periods.map Value.str)
        match valuesAsQ (valsAt t2 si) with
        | none => (none, t2)
        | some sales => (some (Fig.totalSalesLine (sumBy (periods.zip sales))), t2)
  | _, _ => (none, df)

/-- plot_regional_sales_by_year: validates the three named columns, sums
sales by (country, year); the second (choropleth) figure is computed from
the aggregated frame through the hardcoded COUNTRY/SALES labels, so any
other parameter spelling raises (KeyError) and yields None. -/
def plot_regional_sales_by_year (df : Table) (sales_column country_column year_column : String) :
    Option (Fig × Fig) × Table :=
  match df.colIdx sales_column, df.colIdx country_column, df.colIdx year_column with
  | some si, some ci, some yi =>
    match valuesAsQ (valsAt df si) with
    | none => (none, df)
    | some sales =>
      let regional := sumBy (((valsAt df ci).zip (valsAt df yi)).zip sales)
      if country_column = "COUNTRY" ∧ sales_column = "SALES" then
        let avg := meanBy (regional.map (fun p => (p.fst.fst, p.snd)))
        let mapRows := avg.map (fun p => (p.fst, p.snd, isoOf p.fst))
        (some (Fig.regionalBars regional, Fig.regionalMap mapRows), df)
      else (none, df)
  | _, _, _ => (none, df)

/-- plot_top_products: validates the four named columns, converts the date
column in place, assigns the selected_time_period helper column in place,
sums sales grouped by (product, country, period), sorts descending by the
summed sales and keeps the top 5 rows. -/
def plot_top_products (df : Table)
    (products_column date_column country_column sales_column time_period : String) :
    Option Fig × Table :=
  match df.colIdx sales_column, df.colIdx country_column,
        df.colIdx date_column, df.colIdx products_column with
  | some si, some ci, some di, some pi2 =>
    match parseDateVals (valsAt df di) with
    | none => (none, df)
    | some dvals =>
      let t1 := setColVals df di dvals
      match periodsOf time_period dvals with
      | none => (none, t1)
      | some periods =>
        let t2 := setOrAppendCol t1 "selected_time_period" (periods.map Value.str)
        match valuesAsQ (valsAt t2 si) with
        | none => (none, t2)
        | some sales =>
          let keyed := ((valsAt t2 pi2).zip ((valsAt t2 ci).zip periods)).zip sales
          (some (Fig.topProductsBar ((sortDescBySnd (sumBy keyed)).take 5)), t2)
  | _, _, _, _ => (none, df)

/-- plot_msrp_distribution: validates the three named columns, then groups
through the hardcoded MSRP/PRODUCTLINE/SALES labels (KeyError and None when
those are absent) and renders the same aggregation as histogram and
scatter. -/
def plot_msrp_distribution (df : Table) (products_column msrp_column sales_column : String) :
    Option (Fig × Fig) × Table :=
  match df.colIdx sales_column, df.colIdx msrp_column, df.colIdx products_column with
  | some _, some _, some _ =>
    match df.colIdx "MSRP", df.colIdx "PRODUCTLINE", df.colIdx "SALES" with
    | some mi, some pli, some si2 =>
      match valuesAsQ (valsAt df si2) with
      | none => (none, df)
      | some sales =>
        let g := sumBy (((valsAt df mi).zip (valsAt df pli)).zip sales)
        (some (Fig.msrpHistogram g, Fig.msrpScatter g), df)
    | _, _, _ => (none, df)
  | _, _, _ => (none, df)

/-- plot_msrp_vs_priceeach: validates the three named columns, takes mean
MSRP and mean PRICEEACH per PRODUCTLINE (hardcoded labels), melts into
(product, price type, value) triples with PRICEEACH renamed Sale price. -/
def plot_msrp_vs_priceeach (df : Table) (products_column msrp_column price_column : String) :
    Option Fig × Table :=
  match df.colIdx price_column, df.colIdx msrp_column, df.colIdx products_column with
  | some _, some _, some _ =>
    match df.colIdx "PRODUCTLINE", df.colIdx "MSRP", df.colIdx "PRICEEACH" with
    | some pli, some mi, some pei =>
      match valuesAsQ (valsAt df mi), valuesAsQ (valsAt df pei) with
      | some msrps, some prices =>
        let prods := valsAt df pli
        let gm := meanBy (prods.zip msrps)
        let gp := meanBy (prods.zip prices)
        let melted := gm.map (fun p => (p.fst, "MSRP", p.snd)) ++
          gp.map (fun p => (p.fst, "Sale price", p.snd))
        (some (Fig.priceTypeScatter melted), df)
      | _, _ => (none, df)
    | _, _, _ => (none, df)
  | _, _, _ => (none, df)

/-- plot_sales_price_quantityordered: validates the five named columns,
aggregates per PRODUCTLINE (hardcoded labels) mean MSRP, mean PRICEEACH,
summed SALES and summed QUANTITYORDERED, and melts the two price types.
The rasterized JPG it saves is file output outside the data model. -/
def plot_sales_price_quantityordered (df : Table)
    (products_column quantityordered_column sales_column msrp_column price_column : String) :
    Option Fig × Table :=
  match df.colIdx price_column, df.colIdx msrp_column, df.colIdx products_column,
        df.colIdx sales_column, df.colIdx quantityordered_column with
  | some _, some _, some _, some _, some _ =>
    match df.colIdx "PRODUCTLINE", df.colIdx "MSRP", df.colIdx "PRICEEACH",
          df.colIdx "SALES", df.colIdx "QUANTITYORDERED" with
    | some pli, some mi, some pei, some si2, some qi =>
      match valuesAsQ (valsAt df mi), valuesAsQ (valsAt df pei),
            valuesAsQ (valsAt df si2), valuesAsQ (valsAt df qi) with
      | some msrps, some prices, some sales, some qtys =>
        let prods := valsAt df pli
        let gm := meanBy (prods.zip msrps)
        let gp := meanBy (prods.zip prices)
        let gs := sumBy (prods.zip sales)
        let gq := sumBy (prods.zip qtys)
        let melted :=
          gm.map (fun p => (p.fst, lookupQ gs p.fst, lookupQ gq p.fst, "MSRP", p.snd)) ++
          gp.map (fun p => (p.fst, lookupQ gs p.fst, lookupQ gq p.fst, "PRICEEACH", p.snd))
        (some (Fig.priceQuantityFigure melted), df)
      | _, _, _, _ => (none, df)
    | _, _, _, _, _ => (none, df)
  | _, _, _, _, _ => (none, df)

/-- The 30-period rolling mean of the aggregated discount, per product line
(the key's second component), in the row order of the aggregated frame. -/
def rollingMeanWindow (w : Nat) (grouped : List ((Value × Value) × ℚ)) :
    List ((Value × Value) × Option ℚ) :=
  grouped.enum.map (fun pr =>
    let pri := ((grouped.take (pr.fst + 1)).filter
      (fun q => decide (q.fst.snd = pr.snd.fst.snd))).map Prod.snd
    (pr.snd.fst, if w ≤ pri.length then some ((pri.reverse.take w).sum / (w : ℚ)) else none))

/-- plot_discount_pricing_strategy: validates the three named columns, keeps
rows with positive DISCOUNT_PCT (hardcoded labels), means the discount per
(ORDERDATE, PRODUCTLINE), then applies a 30-period rolling mean per
product line. -/
def plot_discount_pricing_strategy (df : Table) (products_column date_column discount_column : String) :
    Option Fig × Table :=
  match df.colIdx products_column, df.colIdx date_column, df.colIdx discount_column with
  | some _, some _, some _ =>
    match df.colIdx "DISCOUNT_PCT", df.colIdx "ORDERDATE", df.colIdx "PRODUCTLINE" with
    | some dci, some odi, some pli =>
      match valuesAsQ (valsAt df dci) with
      | none => (none, df)
      | some discounts =>
        let triples := ((valsAt df odi).zip (valsAt df pli)).zip discounts
        let filtered := triples.filter (fun p => decide (0 < p.snd))
        let grouped := meanBy filtered
        (some (Fig.discountLines (rollingMeanWindow 30 grouped)), df)
    | _, _, _ => (none, df)
  | _, _, _ => (none, df)

/-- plot_dealsize_trends: validates the two named columns, counts rows per
(ORDERDATE, DEALSIZE) (hardcoded labels), renders a stacked area chart. -/
def plot_dealsize_trends (df : Table) (dealsize_column date_column : String) :
    Option Fig × Table :=
  match df.colIdx date_column, df.colIdx dealsize_column with
  | some _, some _ =>
    match df.colIdx "ORDERDATE", df.colIdx "DEALSIZE" with
    | some odi, some dsi =>
      (some (Fig.dealsizeArea (countBy ((valsAt df odi).zip (valsAt df dsi)))), df)
    | _, _ => (none, df)
  | _, _ => (none, df)

/-- plot_rfm: validates the four named columns, computes per customer the
Recency (days from the customer's last order to the dataset maximum),
Frequency (distinct order numbers) and Monetary (summed sales), through the
hardcoded ORDERNUMBER/ORDERDATE/CUSTOMERNAME/SALES labels.  The pie charts
cut the three metrics against fixed band edges whose final edge is the
observed maximum; pd.cut needs strictly increasing edges, so a maximum not
above the last fixed edge raises (ValueError) and the builder yields None. -/
def plot_rfm (df : Table)
    (ordernumber_column orderdate_column customername_column sales_column : String) :
    Option (Fig × Fig × Fig × Fig) × Table :=
  match df.colIdx ordernumber_column, df.colIdx orderdate_column,
        df.colIdx customername_column, df.colIdx sales_column with
  | some _, some _, some _, some _ =>
    match df.colIdx "ORDERNUMBER", df.colIdx "ORDERDATE",
          df.colIdx "CUSTOMERNAME", df.colIdx "SALES" with
    | some oni, some odi, some cui, some si2 =>
      match valuesAsDates (valsAt df odi), valuesAsQ (valsAt df si2) with
      | some dates, some sales =>
        let custs := valsAt df cui
        let onums := valsAt df oni
        let recs := custs.zip (onums.zip (dates.zip sales))
        let maxOrd := maxNat (dates.map dateOrdinal)
        let rfm := (firstKeys custs).map (fun c =>
          let g := recs.filter (fun x => decide (x.fst = c))
          (c, maxOrd - maxNat (g.map (fun x => dateOrdinal x.snd.snd.fst)),
            (firstKeys (g.map (fun x => x.snd.fst))).length,
            (g.map (fun x => x.snd.snd.snd)).sum))
        let maxRec := maxNat (rfm.map (fun x => x.snd.fst))
        let maxMon := maxQ (rfm.map (fun x => x.snd.snd.snd))
        if decide (365 < maxRec) && decide ((800000 : ℚ) < maxMon) then
          let recLabels := ["Very recent customers: 0-30 days", "Recent customers: 31-90 days",
            "Occasional customers: 91-180 days", "Medium-engagement customers: 181-270 days",
            "Low-engagement customers: 271-365 days", "Inactive customers: 365+ days"]
          let freqLabels := ["Rare buyers: 1-2 orders", "Occasional buyers: 3-4 orders",
            "Frequent buyers: 5-6 orders", "Very frequent buyers: 7+ orders"]
          let monLabels := ["0-200k", "200k-400k", "400k-600k", "600k-800k", "800k+"]
          let rc := labelCounts recLabels
            (rfm.map (fun x => cutLabelNat [0, 30, 90, 180, 270, 365, maxRec] recLabels x.snd.fst))
          let fc := labelCounts freqLabels
            (rfm.map (fun x => cutLabelNat [1, 2, 4, 6, 26] freqLabels x.snd.snd.fst))
          let mc := labelCounts monLabels
            (rfm.map (fun x =>
              cutLabelQ [0, 200000, 400000, 600000, 800000, maxMon] monLabels x.snd.snd.snd))
          (some (Fig.rfmScatter3d rfm, Fig.rfmPie rc, Fig.rfmPie fc, Fig.rfmPie mc), df)
        else (none, df)
      | _, _ => (none, df)
    | _, _, _, _ => (none, df)
  | _, _, _, _ => (none, df)

/-! ## C6: canonical-form lemmas for whitespace normalization -/

/-- The head, if any, is not whitespace. -/
def noLeadSpace : List Char → Prop
  | [] => True
  | c :: _ => isSpaceChar c = false

/-- The last character, if any, is not whitespace. -/
def noTrailSpace (l : List Char) : Prop :=
  ∀ c, l.getLast? = some c → isSpaceChar c = false

/-- Internal canonical form: every whitespace character is a single space
followed by a non-space, and the last character is not whitespace. -/
def canonAux : List Char → Prop
  | [] => True
  | [c] => isSpaceChar c = false
  | c :: c2 :: rest =>
    (isSpaceChar c = true → (c = ' ' ∧ isSpaceChar c2 = false)) ∧ canonAux (c2 :: rest)

theorem noLead_dropWhile (l : List Char) : noLeadSpace (l.dropWhile isSpaceChar) := by
  induction l with
  | nil => trivial
  | cons c rest ih =>
    cases h : isSpaceChar c with
    | true =>
      rw [List.dropWhile_cons, if_pos h]
      exact ih
    | false =>
      rw [List.dropWhile_cons, if_neg (by simp [h])]
      exact h

theorem dropWhile_eq_self_of_noLead (l : List Char) (h : noLeadSpace l) :
    l.dropWhile isSpaceChar = l := by
  cases l with
  | nil => rfl
  | cons c rest =>
    have hc : isSpaceChar c = false := h
    rw [List.dropWhile_cons, if_neg (by simp [hc])]

theorem getLast?_cons_cons_eq (a b : Char) (l : List Char) :
    (a :: b :: l).getLast? = (b :: l).getLast? := by
  rfl

theorem getLast?_cons_exists (x : Char) (xs : List Char) :
    ∃ c, (x :: xs).getLast? = some c := by
  induction xs generalizing x with
  | nil => exact ⟨x, rfl⟩
  | cons y ys ih =>
    rw [getLast?_cons_cons_eq]
    exact ih y

theorem mem_of_getLast?_eq (l : List Char) (c : Char) (h : l.getLast? = some c) : c ∈ l := by
  induction l with
  | nil => exact Option.noConfusion h
  | cons a rest ih =>
    cases rest with
    | nil =>
      simp only [List.getLast?_singleton, Option.some.injEq] at h
      subst h
      exact List.mem_cons_self _ _
    | cons b r2 =>
      rw [getLast?_cons_cons_eq] at h
      exact List.mem_cons_of_mem _ (ih h)

theorem stripTrail_noTrail (l : List Char) : noTrailSpace (stripTrail l) := by
  induction l with
  | nil => intro c h; exact Option.noConfusion h
  | cons c rest ih =>
    intro c0 h0
    cases hrest : stripTrail rest with
    | nil =>
      rw [stripTrail, hrest] at h0
      cases hc : isSpaceChar c with
      | true =>
        rw [if_pos hc] at h0
        simp at h0
      | false =>
        rw [if_neg (by simp [hc])] at h0
        simp only [List.getLast?_singleton, Option.some.injEq] at h0
        subst h0
        exact hc
    | cons d r2 =>
      rw [stripTrail, hrest, getLast?_cons_cons_eq] at h0
      rw [← hrest] at h0
      exact ih c0 h0

theorem stripTrail_eq_self_of_noTrail (l : List Char) (h : noTrailSpace l) :
    stripTrail l = l := by
  induction l with
  | nil => rfl
  | cons c rest ih =>
    cases rest with
    | nil =>
      have hc : isSpaceChar c = false := h c (by simp)
      simp [stripTrail, hc]
    | cons d r2 =>
      have hrest : noTrailSpace (d :: r2) := by
        intro x hx
        exact h x (by rw [getLast?_cons_cons_eq]; exact hx)
      have ih2 := ih hrest
      rw [stripTrail, ih2]

theorem noLead_stripTrail (l : List Char) (h : noLeadSpace l) :
    noLeadSpace (stripTrail l) := by
  cases l with
  | nil => trivial
  | cons c rest =>
    have hc : isSpaceChar c = false := h
    cases hrest : stripTrail rest with
    | nil =>
      rw [stripTrail, hrest, if_neg (by simp [hc])]
      exact hc
    | cons d r2 =>
      rw [stripTrail, hrest]
      exact hc

theorem noLead_strip (l : List Char) : noLeadSpace (stripChars l) :=
  noLead_stripTrail _ (noLead_dropWhile l)

theorem noTrail_strip (l : List Char) : noTrailSpace (stripChars l) :=
  stripTrail_noTrail _

theorem collapseAux_cons_nonspace (b : Bool) (c : Char) (r : List Char)
    (h : isSpaceChar c = false) : collapseAux b (c :: r) = c :: collapseAux false r := by
  cases b <;> simp [collapseAux, h]

theorem noLead_collapseAux_true (l : List Char) : noLeadSpace (collapseAux true l) := by
  induction l with
  | nil => trivial
  | cons c rest ih =>
    cases h : isSpaceChar c with
    | true =>
      simp only [collapseAux, h, if_true]
      exact ih
    | false =>
      rw [collapseAux_cons_nonspace _ _ _ h]
      exact h

theorem noLead_collapse_of_noLead (l : List Char) (h : noLeadSpace l) :
    noLeadSpace (collapseAux false l) := by
  cases l with
  | nil => trivial
  | cons c rest =>
    have hc : isSpaceChar c = false := h
    rw [collapseAux_cons_nonspace _ _ _ hc]
    exact hc

theorem collapseAux_true_ne_nil (l : List Char) (c : Char) (hm : c ∈ l)
    (hc : isSpaceChar c = false) : collapseAux true l ≠ [] := by
  induction l with
  | nil => exact absurd hm (List.not_mem_nil c)
  | cons a rest ih =>
    cases ha : isSpaceChar a with
    | true =>
      simp only [collapseAux, ha, if_true]
      rcases List.mem_cons.mp hm with h | h
      · subst h
        rw [ha] at hc
        exact absurd hc (by simp)
      · exact ih h
    | false =>
      rw [collapseAux_cons_nonspace _ _ _ ha]
      simp

theorem canonAux_cons_of_nonspace (c : Char) (X : List Char)
    (hc : isSpaceChar c = false) (hX : canonAux X) : canonAux (c :: X) := by
  cases X with
  | nil => exact hc
  | cons x xs => exact ⟨fun h => absurd h (by simp [hc]), hX⟩

theorem noTrail_tail (c d : Char) (r2 : List Char) (h : noTrailSpace (c :: d :: r2)) :
    noTrailSpace (d :: r2) := by
  intro x hx
  exact h x (by rw [getLast?_cons_cons_eq]; exact hx)

theorem canonAux_collapseAux (l : List Char) (hT : noTrailSpace l) :
    ∀ b, canonAux (collapseAux b l) := by
  induction l with
  | nil => intro b; trivial
  | cons c rest ih =>
    intro b
    cases hc : isSpaceChar c with
    | false =>
      rw [collapseAux_cons_nonspace _ _ _ hc]
      cases rest with
      | nil => exact canonAux_cons_of_nonspace _ _ hc trivial
      | cons d r2 =>
        exact canonAux_cons_of_nonspace _ _ hc (ih (noTrail_tail c d r2 hT) false)
    | true =>
      cases rest with
      | nil =>
        exfalso
        have := hT c (by simp)
        rw [hc] at this
        exact absurd this (by simp)
      | cons d r2 =>
        have hTr : noTrailSpace (d :: r2) := noTrail_tail c d r2 hT
        have hcan : canonAux (collapseAux true (d :: r2)) := ih hTr true
        obtain ⟨c0, hc0⟩ := getLast?_cons_exists d r2
        have hc0ns : isSpaceChar c0 = false := hTr c0 hc0
        have hne : collapseAux true (d :: r2) ≠ [] :=
          collapseAux_true_ne_nil _ c0 (mem_of_getLast?_eq _ _ hc0) hc0ns
        have hstep : collapseAux b (c :: d :: r2) =
            if b then collapseAux true (d :: r2)
            else ' ' :: collapseAux true (d :: r2) := by
          cases b <;> simp [collapseAux, hc]
        rw [hstep]
        cases b with
        | true => simpa using hcan
        | false =>
          simp only [if_false, Bool.false_eq_true, ite_false]
          cases hY : collapseAux true (d :: r2) with
          | nil => exact absurd hY hne
          | cons y ys =>
            have hy : isSpaceChar y = false := by
              have := noLead_collapseAux_true (d :: r2)
              rw [hY] at this
              exact this
            rw [hY] at hcan
            exact ⟨fun _ => ⟨rfl, hy⟩, hcan⟩

theorem canonAux_tail (c : Char) (rest : List Char) (h : canonAux (c :: rest)) :
    canonAux rest := by
  cases rest with
  | nil => trivial
  | cons d r2 => exact h.2

theorem collapse_eq_self_of_canon (l : List Char) (h : canonAux l) :
    collapseAux false l = l := by
  induction l with
  | nil => rfl
  | cons c rest ih =>
    cases hc : isSpaceChar c with
    | false =>
      rw [collapseAux_cons_nonspace _ _ _ hc, ih (canonAux_tail c rest h)]
    | true =>
      cases rest with
      | nil =>
        have : isSpaceChar c = false := h
        rw [hc] at this
        exact absurd this (by simp)
      | cons d r2 =>
        obtain ⟨hsp, hcan2⟩ := h
        obtain ⟨hce, hd⟩ := hsp hc
        have hstep : collapseAux false (c :: d :: r2) =
            ' ' :: collapseAux true (d :: r2) := by
          simp [collapseAux, hc]
        rw [hstep, collapseAux_cons_nonspace _ _ _ hd, hce]
        have := ih hcan2
        rw [collapseAux_cons_nonspace _ _ _ hd] at this
        rw [this]

theorem noTrail_of_canon (l : List Char) (h : canonAux l) : noTrailSpace l := by
  induction l with
  | nil => intro c hc; exact Option.noConfusion hc
  | cons c rest ih =>
    cases rest with
    | nil =>
      intro x hx
      simp only [List.getLast?_singleton, Option.some.injEq] at hx
      subst hx
      exact h
    | cons d r2 =>
      intro x hx
      rw [getLast?_cons_cons_eq] at hx
      exact ih h.2 x hx

/-- String-level idempotence of strip-then-collapse. -/
theorem normalizeStr_idem (s : String) : normalizeStr (normalizeStr s) = normalizeStr s := by
  have hk1 : noLeadSpace (stripChars s.data) := noLead_strip _
  have hk2 : noTrailSpace (stripChars s.data) := noTrail_strip _
  have hcanon : canonAux (collapseChars (stripChars s.data)) :=
    canonAux_collapseAux _ hk2 false
  have hlead : noLeadSpace (collapseChars (stripChars s.data)) :=
    noLead_collapse_of_noLead _ hk1
  have htrail : noTrailSpace (collapseChars (stripChars s.data)) :=
    noTrail_of_canon _ hcanon
  show String.mk (collapseChars (stripChars (collapseChars (stripChars s.data)))) =
    String.mk (collapseChars (stripChars s.data))
  have hstrip : stripChars (collapseChars (stripChars s.data)) =
      collapseChars (stripChars s.data) := by
    show stripTrail ((collapseChars (stripChars s.data)).dropWhile isSpaceChar) = _
    rw [dropWhile_eq_self_of_noLead _ hlead]
    exact stripTrail_eq_self_of_noTrail _ htrail
  rw [hstrip]
  exact congrArg String.mk (collapse_eq_self_of_canon _ hcanon)

theorem stripCellValue_idem (v : Value) :
    stripCellValue (stripCellValue v) = stripCellValue v := by
  cases v <;> simp [stripCellValue, normalizeStr_idem]

theorem applyFlagsRow_getD (fs : List Bool) : ∀ (r : List Value) (i : Nat),
    (applyFlagsRow fs r).getD i Value.null =
      if fs.getD i false = true then stripCellValue (r.getD i Value.null)
      else r.getD i Value.null := by
  induction fs with
  | nil =>
    intro r i
    simp [applyFlagsRow]
  | cons f fs' ih =>
    intro r i
    cases r with
    | nil =>
      have h1 : applyFlagsRow (f :: fs') [] = [] := rfl
      rw [h1]
      cases hf : (f :: fs').getD i false
      · simp
      · simp [stripCellValue]
    | cons v vs =>
      cases i with
      | zero =>
        cases f <;> simp [applyFlagsRow, stripCellValue]
      | succ j =>
        have h1 : applyFlagsRow (f :: fs') (v :: vs) =
            (if f then stripCellValue v else v) :: applyFlagsRow fs' vs := rfl
        rw [h1]
        simp only [List.getD_cons_succ, ih vs j]

theorem applyFlagsRow_idem (fs : List Bool) : ∀ r : List Value,
    applyFlagsRow fs (applyFlagsRow fs r) = applyFlagsRow fs r := by
  induction fs with
  | nil => intro r; rfl
  | cons f fs' ih =>
    intro r
    cases r with
    | nil => rfl
    | cons v vs =>
      have h1 : applyFlagsRow (f :: fs') (v :: vs) =
          (if f then stripCellValue v else v) :: applyFlagsRow fs' vs := rfl
      rw [h1]
      have h2 : applyFlagsRow (f :: fs')
          ((if f then stripCellValue v else v) :: applyFlagsRow fs' vs) =
          (if f then stripCellValue (if f then stripCellValue v else v)
            else (if f then stripCellValue v else v)) ::
            applyFlagsRow fs' (applyFlagsRow fs' vs) := rfl
      rw [h2, ih vs]
      cases f <;> simp [stripCellValue_idem]

theorem isObjectCol_map_strip (vals : List Value) (h : isObjectCol vals = true) :
    isObjectCol (vals.map stripCellValue) = true := by
  rw [isObjectCol, List.any_eq_true] at h ⊢
  obtain ⟨v, hv, hs⟩ := h
  refine ⟨stripCellValue v, List.mem_map_of_mem _ hv, ?_⟩
  cases v <;> simp_all [isStrVal, stripCellValue]

theorem objectFlags_getD (t : Table) (i : Nat) (h : i < t.cols.length) :
    (objectFlags t).getD i false = isObjectCol (valsAt t i) := by
  unfold objectFlags
  rw [List.getD_eq_getElem?_getD, List.getElem?_map, List.getElem?_range h]
  rfl

theorem valsAt_clean_extra_spaces (t : Table) (i : Nat) :
    valsAt (clean_extra_spaces t) i =
      if (objectFlags t).getD i false = true then (valsAt t i).map stripCellValue
      else valsAt t i := by
  unfold clean_extra_spaces valsAt
  simp only [List.map_map]
  cases hf : (objectFlags t).getD i false
  · rw [if_neg (by simp [hf])]
    apply List.map_congr_left
    intro r _
    show (applyFlagsRow (objectFlags t) r).getD i Value.null = r.getD i Value.null
    rw [applyFlagsRow_getD, hf]
    simp
  · rw [if_pos (by simp [hf])]
    apply List.map_congr_left
    intro r _
    show (applyFlagsRow (objectFlags t) r).getD i Value.null =
      stripCellValue (r.getD i Value.null)
    rw [applyFlagsRow_getD, hf]
    simp

theorem objectFlags_clean (t : Table) :
    objectFlags (clean_extra_spaces t) = objectFlags t := by
  unfold objectFlags
  have hcols : (clean_extra_spaces t).cols = t.cols := rfl
  rw [hcols]
  apply List.map_congr_left
  intro i hi
  have hlt : i < t.cols.length := List.mem_range.mp hi
  rw [valsAt_clean_extra_spaces t i]
  cases hf : (objectFlags t).getD i false with
  | false => rw [if_neg (by simp)]
  | true =>
    rw [if_pos rfl]
    have hobj : isObjectCol (valsAt t i) = true := by
      rw [← objectFlags_getD t i hlt]
      exact hf
    rw [hobj, isObjectCol_map_strip _ hobj]

/-- C6: `clean_extra_spaces` is idempotent, and per column it normalizes
object (text-typed) columns by strip-and-collapse while leaving non-text
columns untouched; the underlying string transformation itself is
idempotent. -/
theorem clean_extra_spaces_idempotent_spec :
    (∀ t : Table, clean_extra_spaces (clean_extra_spaces t) = clean_extra_spaces t) ∧
    (∀ s : String, normalizeStr (normalizeStr s) = normalizeStr s) ∧
    (∀ (t : Table) (i : Nat), i < t.cols.length →
      (isObjectCol (valsAt t i) = true →
        valsAt (clean_extra_spaces t) i = (valsAt t i).map stripCellValue) ∧
      (isObjectCol (valsAt t i) = false →
        valsAt (clean_extra_spaces t) i = valsAt t i)) := by
  refine ⟨?_, normalizeStr_idem, ?_⟩
  · intro t
    have h1 : clean_extra_spaces (clean_extra_spaces t) =
        (⟨t.cols, (t.rows.map (fun r => applyFlagsRow (objectFlags t) r)).map
          (fun r => applyFlagsRow (objectFlags t) r)⟩ : Table) := by
      show (⟨(clean_extra_spaces t).cols, (clean_extra_spaces t).rows.map
        (fun r => applyFlagsRow (objectFlags (clean_extra_spaces t)) r)⟩ : Table) = _
      rw [objectFlags_clean]
      rfl
    rw [h1]
    show _ = (⟨t.cols, t.rows.map (fun r => applyFlagsRow (objectFlags t) r)⟩ : Table)
    rw [Table.mk.injEq]
    refine ⟨rfl, ?_⟩
    rw [List.map_map]
    apply List.map_congr_left
    intro r _
    exact applyFlagsRow_idem _ r
  · intro t i hlt
    constructor
    · intro hobj
      rw [valsAt_clean_extra_spaces t i,
        if_pos (by rw [objectFlags_getD t i hlt]; exact hobj)]
    · intro hobj
      rw [valsAt_clean_extra_spaces t i,
        if_neg (by rw [objectFlags_getD t i hlt]; simp [hobj])]

theorem clean_extra_spaces_idempotent_spec_witness :
    clean_extra_spaces (clean_extra_spaces ⟨["A", "N"], [[Value.str " x  y ", Value.num 3]]⟩) =
      clean_extra_spaces ⟨["A", "N"], [[Value.str " x  y ", Value.num 3]]⟩ ∧
    valsAt (clean_extra_spaces ⟨["A", "N"], [[Value.str " x  y ", Value.num 3]]⟩) 0 =
      (valsAt ⟨["A", "N"], [[Value.str " x  y ", Value.num 3]]⟩ 0).map stripCellValue ∧
    valsAt (clean_extra_spaces ⟨["A", "N"], [[Value.str " x  y ", Value.num 3]]⟩) 1 =
      valsAt ⟨["A", "N"], [[Value.str " x  y ", Value.num 3]]⟩ 1 :=
  ⟨clean_extra_spaces_idempotent_spec.1 ⟨["A", "N"], [[Value.str " x  y ", Value.num 3]]⟩,
   (clean_extra_spaces_idempotent_spec.2.2 ⟨["A", "N"], [[Value.str " x  y ", Value.num 3]]⟩ 0
      (by decide)).1 (by decide),
   (clean_extra_spaces_idempotent_spec.2.2 ⟨["A", "N"], [[Value.str " x  y ", Value.num 3]]⟩ 1
      (by decide)).2 (by decide)⟩

/-! ## C7: sorting lemmas and plot_top_products -/

theorem insertDescBySnd_perm {κ : Type} (x : κ × ℚ) (l : List (κ × ℚ)) :
    List.Perm (insertDescBySnd x l) (x :: l) := by
  induction l with
  | nil => exact List.Perm.refl _
  | cons y ys ih =>
    by_cases h : y.snd < x.snd
    · rw [insertDescBySnd, if_pos h]
    · rw [insertDescBySnd, if_neg h]
      exact (ih.cons y).trans (List.Perm.swap x y ys)

theorem sortDescBySnd_perm {κ : Type} (l : List (κ × ℚ)) :
    List.Perm (sortDescBySnd l) l := by
  induction l with
  | nil => exact List.Perm.refl _
  | cons x xs ih =>
    have hstep : sortDescBySnd (x :: xs) = insertDescBySnd x (sortDescBySnd xs) := rfl
    rw [hstep]
    exact (insertDescBySnd_perm x (sortDescBySnd xs)).trans (ih.cons x)

theorem insertDescBySnd_pairwise {κ : Type} (x : κ × ℚ) (l : List (κ × ℚ))
    (h : List.Pairwise (fun a b => b.snd ≤ a.snd) l) :
    List.Pairwise (fun a b => b.snd ≤ a.snd) (insertDescBySnd x l) := by
  induction l with
  | nil => simp [insertDescBySnd]
  | cons y ys ih =>
    rw [List.pairwise_cons] at h
    obtain ⟨hy, hys⟩ := h
    by_cases hlt : y.snd < x.snd
    · rw [insertDescBySnd, if_pos hlt, List.pairwise_cons]
      refine ⟨?_, List.pairwise_cons.mpr ⟨hy, hys⟩⟩
      intro b hb
      rcases List.mem_cons.mp hb with hb | hb
      · subst hb
        exact le_of_lt hlt
      · exact le_trans (hy b hb) (le_of_lt hlt)
    · rw [insertDescBySnd, if_neg hlt, List.pairwise_cons]
      refine ⟨?_, ih hys⟩
      intro b hb
      have hb2 : b ∈ x :: ys := (insertDescBySnd_perm x ys).mem_iff.mp hb
      rcases List.mem_cons.mp hb2 with hb2 | hb2
      · subst hb2
        exact le_of_not_lt hlt
      · exact hy b hb2

theorem sortDescBySnd_pairwise {κ : Type} (l : List (κ × ℚ)) :
    List.Pairwise (fun a b => b.snd ≤ a.snd) (sortDescBySnd l) := by
  induction l with
  | nil => simp [sortDescBySnd]
  | cons x xs ih =>
    have hstep : sortDescBySnd (x :: xs) = insertDescBySnd x (sortDescBySnd xs) := rfl
    rw [hstep]
    exact insertDescBySnd_pairwise x _ ih

theorem sortDescBySnd_head_unique_max {κ : Type} (l : List (κ × ℚ)) (p : κ × ℚ)
    (hp : p ∈ l) (hmax : ∀ q ∈ l, q ≠ p → q.snd < p.snd) :
    (sortDescBySnd l).head? = some p := by
  have hperm := sortDescBySnd_perm l
  have hpmem : p ∈ sortDescBySnd l := hperm.mem_iff.mpr hp
  cases hs : sortDescBySnd l with
  | nil =>
    rw [hs] at hpmem
    exact absurd hpmem (List.not_mem_nil p)
  | cons h0 rest =>
    have hpw := sortDescBySnd_pairwise l
    rw [hs, List.pairwise_cons] at hpw
    by_cases hph : h0 = p
    · rw [hph]
      rfl
    · exfalso
      have hh0l : h0 ∈ l := hperm.mem_iff.mp (by rw [hs]; exact List.mem_cons_self _ _)
      have hlt : h0.snd < p.snd := hmax h0 hh0l hph
      rw [hs] at hpmem
      rcases List.mem_cons.mp hpmem with hcase | hcase
      · exact hph hcase.symm
      · exact absurd (lt_of_le_of_lt (hpw.1 p hcase) hlt) (lt_irrefl _)

theorem head?_take_five {κ : Type} (l : List (κ × ℚ)) : (l.take 5).head? = l.head? := by
  cases l <;> rfl

/-- C7: with the required columns present and each intermediate step
succeeding, `plot_top_products` returns exactly the aggregation sum of
sales grouped by (product, country, period), sorted descending by summed
sales, truncated to the top 5 rows; the truncation has at most 5 rows, is
sorted descending, and is a permutation-prefix of the grouped data, and
when one grouped row has the strictly highest summed sales that row (hence
its product) is ranked first. -/
theorem plot_top_products_spec :
    (∀ (df : Table) (pcol dcol ccol scol tp : String) (si ci di pj : Nat)
      (dvals : List Value) (periods : List String) (sales : List ℚ),
      df.colIdx scol = some si → df.colIdx ccol = some ci →
      df.colIdx dcol = some di → df.colIdx pcol = some pj →
      parseDateVals (valsAt df di) = some dvals →
      periodsOf tp dvals = some periods →
      valuesAsQ (valsAt (setOrAppendCol (setColVals df di dvals) "selected_time_period"
        (periods.map Value.str)) si) = some sales →
      plot_top_products df pcol dcol ccol scol tp =
        (some (Fig.topProductsBar ((sortDescBySnd (sumBy
          (((valsAt (setOrAppendCol (setColVals df di dvals) "selected_time_period"
              (periods.map Value.str)) pj).zip
            ((valsAt (setOrAppendCol (setColVals df di dvals) "selected_time_period"
              (periods.map Value.str)) ci).zip periods)).zip sales))).take 5)),
          setOrAppendCol (setColVals df di dvals) "selected_time_period"
            (periods.map Value.str))) ∧
    (∀ l : List ((Value × Value × String) × ℚ),
      ((sortDescBySnd l).take 5).length ≤ 5 ∧
      List.Pairwise (fun a b => b.snd ≤ a.snd) ((sortDescBySnd l).take 5) ∧
      List.Perm (sortDescBySnd l) l) ∧
    (∀ (l : List ((Value × Value × String) × ℚ)) (p : (Value × Value × String) × ℚ),
      p ∈ l → (∀ q ∈ l, q ≠ p → q.snd < p.snd) →
      ((sortDescBySnd l).take 5).head? = some p) := by
  refine ⟨?_, ?_, ?_⟩
  · intro df pcol dcol ccol scol tp si ci di pj dvals periods sales h1 h2 h3 h4 h5 h6 h7
    simp only [plot_top_products, h1, h2, h3, h4, h5, h6, h7]
  · intro l
    refine ⟨?_, ?_, sortDescBySnd_perm l⟩
    · exact List.length_take_le 5 _
    · exact (sortDescBySnd_pairwise l).sublist (List.take_sublist 5 _)
  · intro l p hp hmax
    rw [head?_take_five]
    exact sortDescBySnd_head_unique_max l p hp hmax

theorem plot_top_products_spec_witness :
    ((sortDescBySnd [((Value.str "A", Value.str "USA", "2023-01"), (10 : ℚ)),
        ((Value.str "C", Value.str "USA", "2023-01"), (99 : ℚ))]).take 5).head? =
      some ((Value.str "C", Value.str "USA", "2023-01"), (99 : ℚ)) :=
  plot_top_products_spec.2.2
    [((Value.str "A", Value.str "USA", "2023-01"), (10 : ℚ)),
      ((Value.str "C", Value.str "USA", "2023-01"), (99 : ℚ))]
    ((Value.str "C", Value.str "USA", "2023-01"), (99 : ℚ))
    (by decide) (by decide)

/-! ## C8: every chart builder fails the same way on a missing column -/

theorem colIdx_eq_none_of_not_mem (t : Table) (c : String) (h : c ∉ t.cols) :
    t.colIdx c = none := by
  unfold Table.colIdx
  rw [List.findIdx?_eq_none_iff]
  intro x hx
  simp only [decide_eq_false_iff_not]
  intro he
  exact h (he ▸ hx)

/-- C8: each of the nine chart builders checks its named parameter columns
against the table first and, when any is missing, reports failure by
returning a null figure before any aggregation, leaving the table as it
was; the failure mode is the same (a null result) for all nine. -/
theorem chart_builders_missing_column_spec :
    (∀ (df : Table) (d s tp : String), (d ∉ df.cols ∨ s ∉ df.cols) →
      plot_total_sales df d s tp = (none, df)) ∧
    (∀ (df : Table) (s c y : String), (s ∉ df.cols ∨ c ∉ df.cols ∨ y ∉ df.cols) →
      plot_regional_sales_by_year df s c y = (none, df)) ∧
    (∀ (df : Table) (p d c s tp : String),
      (s ∉ df.cols ∨ c ∉ df.cols ∨ d ∉ df.cols ∨ p ∉ df.cols) →
      plot_top_products df p d c s tp = (none, df)) ∧
    (∀ (df : Table) (p m s : String), (s ∉ df.cols ∨ m ∉ df.cols ∨ p ∉ df.cols) →
      plot_msrp_distribution df p m s = (none, df)) ∧
    (∀ (df : Table) (p m pr : String), (pr ∉ df.cols ∨ m ∉ df.cols ∨ p ∉ df.cols) →
      plot_msrp_vs_priceeach df p m pr = (none, df)) ∧
    (∀ (df : Table) (p q s m pr : String),
      (pr ∉ df.cols ∨ m ∉ df.cols ∨ p ∉ df.cols ∨ s ∉ df.cols ∨ q ∉ df.cols) →
      plot_sales_price_quantityordered df p q s m pr = (none, df)) ∧
    (∀ (df : Table) (p d dc : String), (p ∉ df.cols ∨ d ∉ df.cols ∨ dc ∉ df.cols) →
      plot_discount_pricing_strategy df p d dc = (none, df)) ∧
    (∀ (df : Table) (ds d : String), (d ∉ df.cols ∨ ds ∉ df.cols) →
      plot_dealsize_trends df ds d = (none, df)) ∧
    (∀ (df : Table) (o od cu s : String),
      (o ∉ df.cols ∨ od ∉ df.cols ∨ cu ∉ df.cols ∨ s ∉ df.cols) →
      plot_rfm df o od cu s = (none, df)) := by
  refine ⟨?_, ?_, ?_, ?_, ?_, ?_, ?_, ?_, ?_⟩
  · intro df d s tp h
    have key : df.colIdx d = none ∨ df.colIdx s = none := by
      rcases h with h | h
      · exact Or.inl (colIdx_eq_none_of_not_mem df _ h)
      · exact Or.inr (colIdx_eq_none_of_not_mem df _ h)
    cases e1 : df.colIdx d <;> cases e2 : df.colIdx s <;>
      simp_all [plot_total_sales]
  · intro df s c y h
    have key : df.colIdx s = none ∨ df.colIdx c = none ∨ df.colIdx y = none := by
      rcases h with h | h | h
      · exact Or.inl (colIdx_eq_none_of_not_mem df _ h)
      · exact Or.inr (Or.inl (colIdx_eq_none_of_not_mem df _ h))
      · exact Or.inr (Or.inr (colIdx_eq_none_of_not_mem df _ h))
    cases e1 : df.colIdx s <;> cases e2 : df.colIdx c <;> cases e3 : df.colIdx y <;>
      simp_all [plot_regional_sales_by_year]
  · intro df p d c s tp h
    have key : df.colIdx s = none ∨ df.colIdx c = none ∨ df.colIdx d = none ∨
        df.colIdx p = none := by
      rcases h with h | h | h | h
      · exact Or.inl (colIdx_eq_none_of_not_mem df _ h)
      · exact Or.inr (Or.inl (colIdx_eq_none_of_not_mem df _ h))
      · exact Or.inr (Or.inr (Or.inl (colIdx_eq_none_of_not_mem df _ h)))
      · exact Or.inr (Or.inr (Or.inr (colIdx_eq_none_of_not_mem df _ h)))
    cases e1 : df.colIdx s <;> cases e2 : df.colIdx c <;> cases e3 : df.colIdx d <;>
      cases e4 : df.colIdx p <;> simp_all [plot_top_products]
  · intro df p m s h
    have key : df.colIdx s = none ∨ df.colIdx m = none ∨ df.colIdx p = none := by
      rcases h with h | h | h
      · exact Or.inl (colIdx_eq_none_of_not_mem df _ h)
      · exact Or.inr (Or.inl (colIdx_eq_none_of_not_mem df _ h))
      · exact Or.inr (Or.inr (colIdx_eq_none_of_not_mem df _ h))
    cases e1 : df.colIdx s <;> cases e2 : df.colIdx m <;> cases e3 : df.colIdx p <;>
      simp_all [plot_msrp_distribution]
  · intro df p m pr h
    have key : df.colIdx pr = none ∨ df.colIdx m = none ∨ df.colIdx p = none := by
      rcases h with h | h | h
      · exact Or.inl (colIdx_eq_none_of_not_mem df _ h)
      · exact Or.inr (Or.inl (colIdx_eq_none_of_not_mem df _ h))
      · exact Or.inr (Or.inr (colIdx_eq_none_of_not_mem df _ h))
    cases e1 : df.colIdx pr <;> cases e2 : df.colIdx m <;> cases e3 : df.colIdx p <;>
      simp_all [plot_msrp_vs_priceeach]
  · intro df p q s m pr h
    have key : df.colIdx pr = none ∨ df.colIdx m = none ∨ df.colIdx p = none ∨
        df.colIdx s = none ∨ df.colIdx q = none := by
      rcases h with h | h | h | h | h
      · exact Or.inl (colIdx_eq_none_of_not_mem df _ h)
      · exact Or.inr (Or.inl (colIdx_eq_none_of_not_mem df _ h))
      · exact Or.inr (Or.inr (Or.inl (colIdx_eq_none_of_not_mem df _ h)))
      · exact Or.inr (Or.inr (Or.inr (Or.inl (colIdx_eq_none_of_not_mem df _ h))))
      · exact Or.inr (Or.inr (Or.inr (Or.inr (colIdx_eq_none_of_not_mem df _ h))))
    cases e1 : df.colIdx pr <;> cases e2 : df.colIdx m <;> cases e3 : df.colIdx p <;>
      cases e4 : df.colIdx s <;> cases e5 : df.colIdx q <;>
        simp_all [plot_sales_price_quantityordered]
  · intro df p d dc h
    have key : df.colIdx p = none ∨ df.colIdx d = none ∨ df.colIdx dc = none := by
      rcases h with h | h | h
      · exact Or.inl (colIdx_eq_none_of_not_mem df _ h)
      · exact Or.inr (Or.inl (colIdx_eq_none_of_not_mem df _ h))
      · exact Or.inr (Or.inr (colIdx_eq_none_of_not_mem df _ h))
    cases e1 : df.colIdx p <;> cases e2 : df.colIdx d <;> cases e3 : df.colIdx dc <;>
      simp_all [plot_discount_pricing_strategy]
  · intro df ds d h
    have key : df.colIdx d = none ∨ df.colIdx ds = none := by
      rcases h with h | h
      · exact Or.inl (colIdx_eq_none_of_not_mem df _ h)
      · exact Or.inr (colIdx_eq_none_of_not_mem df _ h)
    cases e1 : df.colIdx d <;> cases e2 : df.colIdx ds <;>
      simp_all [plot_dealsize_trends]
  · intro df o od cu s h
    have key : df.colIdx o = none ∨ df.colIdx od = none ∨ df.colIdx cu = none ∨
        df.colIdx s = none := by
      rcases h with h | h | h | h
      · exact Or.inl (colIdx_eq_none_of_not_mem df _ h)
      · exact Or.inr (Or.inl (colIdx_eq_none_of_not_mem df _ h))
      · exact Or.inr (Or.inr (Or.inl (colIdx_eq_none_of_not_mem df _ h)))
      · exact Or.inr (Or.inr (Or.inr (colIdx_eq_none_of_not_mem df _ h)))
    cases e1 : df.colIdx o <;> cases e2 : df.colIdx od <;> cases e3 : df.colIdx cu <;>
      cases e4 : df.colIdx s <;> simp_all [plot_rfm]

theorem chart_builders_missing_column_spec_witness :
    plot_total_sales ⟨["A"], []⟩ "X" "A" "M" = (none, ⟨["A"], []⟩) ∧
    plot_regional_sales_by_year ⟨["A"], []⟩ "X" "A" "A" = (none, ⟨["A"], []⟩) ∧
    plot_top_products ⟨["A"], []⟩ "A" "A" "A" "X" "M" = (none, ⟨["A"], []⟩) ∧
    plot_msrp_distribution ⟨["A"], []⟩ "A" "A" "X" = (none, ⟨["A"], []⟩) ∧
    plot_msrp_vs_priceeach ⟨["A"], []⟩ "A" "A" "X" = (none, ⟨["A"], []⟩) ∧
    plot_sales_price_quantityordered ⟨["A"], []⟩ "A" "A" "A" "A" "X" = (none, ⟨["A"], []⟩) ∧
    plot_discount_pricing_strategy ⟨["A"], []⟩ "X" "A" "A" = (none, ⟨["A"], []⟩) ∧
    plot_dealsize_trends ⟨["A"], []⟩ "A" "X" = (none, ⟨["A"], []⟩) ∧
    plot_rfm ⟨["A"], []⟩ "X" "A" "A" "A" = (none, ⟨["A"], []⟩) :=
  ⟨chart_builders_missing_column_spec.1 ⟨["A"], []⟩ "X" "A" "M" (Or.inl (by decide)),
   chart_builders_missing_column_spec.2.1 ⟨["A"], []⟩ "X" "A" "A" (Or.inl (by decide)),
   chart_builders_missing_column_spec.2.2.1 ⟨["A"], []⟩ "A" "A" "A" "X" "M"
     (Or.inl (by decide)),
   chart_builders_missing_column_spec.2.2.2.1 ⟨["A"], []⟩ "A" "A" "X" (Or.inl (by decide)),
   chart_builders_missing_column_spec.2.2.2.2.1 ⟨["A"], []⟩ "A" "A" "X"
     (Or.inl (by decide)),
   chart_builders_missing_column_spec.2.2.2.2.2.1 ⟨["A"], []⟩ "A" "A" "A" "A" "X"
     (Or.inl (by decide)),
   chart_builders_missing_column_spec.2.2.2.2.2.2.1 ⟨["A"], []⟩ "X" "A" "A"
     (Or.inl (by decide)),
   chart_builders_missing_column_spec.2.2.2.2.2.2.2.1 ⟨["A"], []⟩ "A" "X"
     (Or.inl (by decide)),
   chart_builders_missing_column_spec.2.2.2.2.2.2.2.2 ⟨["A"], []⟩ "X" "A" "A" "A"
     (Or.inl (by decide))⟩

/-! ## C9: which builders mutate the caller's table, and how -/

theorem findIdx?_start_facts (c : String) : ∀ (l : List String) (st i : Nat),
    List.findIdx? (fun x => decide (x = c)) l st = some i →
    st ≤ i ∧ i - st < l.length ∧ l.getD (i - st) "" = c := by
  intro l
  induction l with
  | nil => intro st i h; exact Option.noConfusion h
  | cons a rest ih =>
    intro st i h
    rw [List.findIdx?_cons] at h
    by_cases ha : a = c
    · rw [if_pos (by simp [ha])] at h
      simp only [Option.some.injEq] at h
      subst h
      refine ⟨le_refl _, by simp, by simp [ha]⟩
    · rw [if_neg (by simp [ha])] at h
      obtain ⟨h1, h2, h3⟩ := ih (st + 1) i h
      refine ⟨by omega, by simp only [List.length_cons]; omega, ?_⟩
      have he : i - st = (i - (st + 1)) + 1 := by omega
      rw [he, List.getD_cons_succ]
      exact h3

theorem colIdx_facts (t : Table) (c : String) (i : Nat) (h : t.colIdx c = some i) :
    i < t.cols.length ∧ t.cols.getD i "" = c := by
  obtain ⟨_, h2, h3⟩ := findIdx?_start_facts c t.cols 0 i h
  constructor
  · simpa using h2
  · simpa using h3

theorem getD_set_ne (v dflt : Value) : ∀ (r : List Value) (j i : Nat), i ≠ j →
    (r.set j v).getD i dflt = r.getD i dflt := by
  intro r
  induction r with
  | nil => intro j i _; simp
  | cons a t ih =>
    intro j i hne
    cases j with
    | zero =>
      cases i with
      | zero => exact absurd rfl hne
      | succ k => simp [List.getD_cons_succ]
    | succ j2 =>
      cases i with
      | zero => simp
      | succ k =>
        simp only [List.set_cons_succ, List.getD_cons_succ]
        exact ih j2 k (fun he => hne (by rw [he]))

theorem map_getD_zip_set (di i : Nat) (hne : i ≠ di) :
    ∀ (rows : List (List Value)) (vals : List Value), vals.length = rows.length →
    ((rows.zip vals).map (fun p => p.fst.set di p.snd)).map
        (fun r => r.getD i Value.null) =
      rows.map (fun r => r.getD i Value.null) := by
  intro rows
  induction rows with
  | nil => intro vals _; rfl
  | cons r rs ih =>
    intro vals h
    cases vals with
    | nil => simp at h
    | cons v vs =>
      simp only [List.zip_cons_cons, List.map_cons]
      rw [ih vs (by simpa using h), getD_set_ne v Value.null r di i hne]

theorem getD_append_left (dflt : Value) : ∀ (r : List Value) (x : Value) (i : Nat),
    i < r.length → (r ++ [x]).getD i dflt = r.getD i dflt := by
  intro r
  induction r with
  | nil => intro x i h; simp at h
  | cons a t ih =>
    intro x i h
    cases i with
    | zero => simp
    | succ k =>
      simp only [List.cons_append, List.getD_cons_succ]
      exact ih x k (by simpa using h)

theorem map_getD_zip_append (i : Nat) :
    ∀ (rows : List (List Value)) (vals : List Value), vals.length = rows.length →
    (∀ r ∈ rows, i < r.length) →
    ((rows.zip vals).map (fun p => p.fst ++ [p.snd])).map
        (fun r => r.getD i Value.null) =
      rows.map (fun r => r.getD i Value.null) := by
  intro rows
  induction rows with
  | nil => intro vals _ _; rfl
  | cons r rs ih =>
    intro vals h hlen
    cases vals with
    | nil => simp at h
    | cons v vs =>
      simp only [List.zip_cons_cons, List.map_cons]
      rw [ih vs (by simpa using h) (fun x hx => hlen x (List.mem_cons_of_mem _ hx)),
        getD_append_left Value.null r v i (hlen r (List.mem_cons_self _ _))]

theorem findIdx?_append_of_some (c : String) : ∀ (l1 l2 : List String) (st i : Nat),
    List.findIdx? (fun x => decide (x = c)) l1 st = some i →
    List.findIdx? (fun x => decide (x = c)) (l1 ++ l2) st = some i := by
  intro l1
  induction l1 with
  | nil => intro l2 st i h; exact Option.noConfusion h
  | cons a rest ih =>
    intro l2 st i h
    rw [List.findIdx?_cons] at h
    rw [List.cons_append, List.findIdx?_cons]
    by_cases ha : decide (a = c) = true
    · rw [if_pos ha] at h ⊢
      exact h
    · rw [if_neg ha] at h ⊢
      exact ih l2 (st + 1) i h

theorem getColVals_setColVals_ne (t : Table) (d c : String) (di : Nat) (vals : List Value)
    (hd : t.colIdx d = some di) (hne : c ≠ d) (hlen : vals.length = t.rows.length) :
    (setColVals t di vals).getColVals c = t.getColVals c := by
  unfold Table.getColVals
  have hcols : (setColVals t di vals).colIdx c = t.colIdx c := rfl
  rw [hcols]
  cases hc : t.colIdx c with
  | none => rfl
  | some i =>
    simp only [Option.map_some']
    congr 1
    have hid : t.cols.getD di "" = d := (colIdx_facts t d di hd).2
    have hic : t.cols.getD i "" = c := (colIdx_facts t c i hc).2
    have hne2 : i ≠ di := fun he => hne (by rw [← hic, he, hid])
    show ((t.rows.zip vals).map (fun p => p.fst.set di p.snd)).map
        (fun r => r.getD i Value.null) = t.rows.map (fun r => r.getD i Value.null)
    exact map_getD_zip_set di i hne2 t.rows vals hlen

theorem setColVals_rows_length (t : Table) (di : Nat) (vals : List Value)
    (hlen : vals.length = t.rows.length) :
    (setColVals t di vals).rows.length = t.rows.length := by
  simp [setColVals, List.length_zip, hlen]

theorem rect_setColVals (t : Table) (di : Nat) (vals : List Value) (hrect : t.Rect) :
    (setColVals t di vals).Rect := by
  intro r hr
  simp only [setColVals, List.mem_map] at hr
  obtain ⟨p, hp, hpr⟩ := hr
  subst hpr
  have hmem := (List.of_mem_zip hp).1
  show (p.fst.set di p.snd).length = t.cols.length
  rw [List.length_set]
  exact hrect p.fst hmem

theorem getColVals_setOrAppendCol_ne (t : Table) (h c : String) (vals : List Value)
    (hne : c ≠ h) (hmem : c ∈ t.cols) (hrect : t.Rect)
    (hlen : vals.length = t.rows.length) :
    (setOrAppendCol t h vals).getColVals c = t.getColVals c := by
  cases hh : t.colIdx h with
  | some j =>
    have hEq : setOrAppendCol t h vals = setColVals t j vals := by
      unfold setOrAppendCol
      rw [hh]
    rw [hEq]
    exact getColVals_setColVals_ne t h c j vals hh hne hlen
  | none =>
    have hEq : setOrAppendCol t h vals =
        ⟨t.cols ++ [h], (t.rows.zip vals).map (fun p => p.fst ++ [p.snd])⟩ := by
      unfold setOrAppendCol
      rw [hh]
    rw [hEq]
    cases hc : t.colIdx c with
    | none =>
      exfalso
      rw [Table.colIdx, List.findIdx?_eq_none_iff] at hc
      have h2 := hc c hmem
      simp at h2
    | some i =>
      have hI : (⟨t.cols ++ [h], (t.rows.zip vals).map (fun p => p.fst ++ [p.snd])⟩ :
          Table).colIdx c = some i := by
        unfold Table.colIdx at hc ⊢
        exact findIdx?_append_of_some c t.cols [h] 0 i hc
      unfold Table.getColVals
      rw [hI, hc]
      simp only [Option.map_some']
      congr 1
      have hlt : i < t.cols.length := (colIdx_facts t c i hc).1
      show ((t.rows.zip vals).map (fun p => p.fst ++ [p.snd])).map
          (fun r => r.getD i Value.null) = t.rows.map (fun r => r.getD i Value.null)
      exact map_getD_zip_append i t.rows vals hlen
        (fun r hr => by rw [hrect r hr]; exact hlt)

theorem parseDateVals_length : ∀ l l2 : List Value,
    parseDateVals l = some l2 → l2.length = l.length := by
  intro l
  induction l with
  | nil =>
    intro l2 h
    simp only [parseDateVals, Option.some.injEq] at h
    subst h
    rfl
  | cons v vs ih =>
    intro l2 h
    simp only [parseDateVals] at h
    cases hc : cellToDatetime v with
    | none => rw [hc] at h; simp at h
    | some w =>
      rw [hc] at h
      cases hr : parseDateVals vs with
      | none => rw [hr] at h; simp at h
      | some ws =>
        rw [hr] at h
        simp only [Option.some.injEq] at h
        subst h
        simp [ih ws hr]

theorem periodsOf_length (tp : String) : ∀ l ps,
    periodsOf tp l = some ps → ps.length = l.length := by
  intro l
  induction l with
  | nil =>
    intro ps h
    simp only [periodsOf, Option.some.injEq] at h
    subst h
    rfl
  | cons v vs ih =>
    intro ps h
    simp only [periodsOf] at h
    cases hc : periodOfValue tp v with
    | none => rw [hc] at h; simp at h
    | some s =>
      rw [hc] at h
      cases hr : periodsOf tp vs with
      | none => rw [hr] at h; simp at h
      | some ss =>
        rw [hr] at h
        simp only [Option.some.injEq] at h
        subst h
        simp [ih ss hr]

theorem valsAt_length (t : Table) (i : Nat) : (valsAt t i).length = t.rows.length := by
  simp [valsAt]

/-- Columns other than the date column and the helper column survive the
two in-place assignments of the period-bucketing builders. -/
theorem mutated_table_other_cols (df : Table) (d c : String) (di : Nat)
    (dvals pvals : List Value) (hd : df.colIdx d = some di) (hrect : df.Rect)
    (hc : c ∈ df.cols) (hcd : c ≠ d) (hch : c ≠ "selected_time_period")
    (hlen1 : dvals.length = df.rows.length) (hlen2 : pvals.length = df.rows.length) :
    (setOrAppendCol (setColVals df di dvals) "selected_time_period" pvals).getColVals c =
      df.getColVals c := by
  have h1 : (setColVals df di dvals).Rect := rect_setColVals df di dvals hrect
  have h2 : c ∈ (setColVals df di dvals).cols := hc
  have h3 : pvals.length = (setColVals df di dvals).rows.length := by
    rw [setColVals_rows_length df di dvals hlen1]
    exact hlen2
  rw [getColVals_setOrAppendCol_ne (setColVals df di dvals) "selected_time_period" c
    pvals hch h2 h1 h3]
  exact getColVals_setColVals_ne df d c di dvals hd hcd hlen1

/-- C9 counterexample: the claim that only the helper column is a visible
side effect is false: on a table whose date column holds strings,
plot_total_sales also overwrites the date column itself (the caller's "D"
column changes from a string to a datetime). -/
theorem chart_builder_mutation_counterexample :
    ((plot_total_sales ⟨["D", "S"], [[Value.str "2023-01-05", Value.num 10]]⟩
        "D" "S" "M").snd).getColVals "D" ≠
      (⟨["D", "S"], [[Value.str "2023-01-05", Value.num 10]]⟩ : Table).getColVals "D" := by
  decide

/-- C9 (amended): the seven builders without a derived time-period column
return the caller's table untouched; plot_total_sales and plot_top_products
leave every column other than the date column and the selected_time_period
helper column unchanged, and on the successful path they overwrite the date
column in place with its parsed datetimes and assign the helper column, as
a side effect visible to the caller. -/
theorem chart_builder_mutation_amended_spec :
    (∀ (df : Table) (s c y : String), (plot_regional_sales_by_year df s c y).snd = df) ∧
    (∀ (df : Table) (p m s : String), (plot_msrp_distribution df p m s).snd = df) ∧
    (∀ (df : Table) (p m pr : String), (plot_msrp_vs_priceeach df p m pr).snd = df) ∧
    (∀ (df : Table) (p q s m pr : String),
      (plot_sales_price_quantityordered df p q s m pr).snd = df) ∧
    (∀ (df : Table) (p d dc : String), (plot_discount_pricing_strategy df p d dc).snd = df) ∧
    (∀ (df : Table) (ds d : String), (plot_dealsize_trends df ds d).snd = df) ∧
    (∀ (df : Table) (o od cu s : String), (plot_rfm df o od cu s).snd = df) ∧
    (∀ (df : Table) (d s tp c : String), df.Rect → c ∈ df.cols → c ≠ d →
      c ≠ "selected_time_period" →
      ((plot_total_sales df d s tp).snd).getColVals c = df.getColVals c) ∧
    (∀ (df : Table) (p d co s tp c0 : String), df.Rect → c0 ∈ df.cols → c0 ≠ d →
      c0 ≠ "selected_time_period" →
      ((plot_top_products df p d co s tp).snd).getColVals c0 = df.getColVals c0) ∧
    (∀ (df : Table) (d s tp : String) (di si : Nat)
      (dvals : List Value) (periods : List String),
      df.colIdx d = some di → df.colIdx s = some si →
      parseDateVals (valsAt df di) = some dvals →
      periodsOf tp dvals = some periods →
      (plot_total_sales df d s tp).snd =
        setOrAppendCol (setColVals df di dvals) "selected_time_period"
          (periods.map Value.str)) := by
  refine ⟨?_, ?_, ?_, ?_, ?_, ?_, ?_, ?_, ?_, ?_⟩
  · intro df s c y
    unfold plot_regional_sales_by_year
    repeat' split
    all_goals rfl
  · intro df p m s
    unfold plot_msrp_distribution
    repeat' split
    all_goals rfl
  · intro df p m pr
    unfold plot_msrp_vs_priceeach
    repeat' split
    all_goals rfl
  · intro df p q s m pr
    unfold plot_sales_price_quantityordered
    repeat' split
    all_goals rfl
  · intro df p d dc
    unfold plot_discount_pricing_strategy
    repeat' split
    all_goals rfl
  · intro df ds d
    unfold plot_dealsize_trends
    repeat' split
    all_goals rfl
  · intro df o od cu s
    unfold plot_rfm
    repeat' split
    all_goals try rfl
    all_goals
      dsimp only
      split
      all_goals rfl
  · intro df d s tp c hrect hc hcd hch
    cases e1 : df.colIdx d with
    | none =>
      cases e2 : df.colIdx s <;> simp [plot_total_sales, e1, e2]
    | some di =>
      cases e2 : df.colIdx s with
      | none => simp [plot_total_sales, e1, e2]
      | some si =>
        cases e3 : parseDateVals (valsAt df di) with
        | none => simp [plot_total_sales, e1, e2, e3]
        | some dvals =>
          have hlen1 : dvals.length = df.rows.length := by
            rw [parseDateVals_length _ _ e3, valsAt_length]
          cases e4 : periodsOf tp dvals with
          | none =>
            have hsnd : (plot_total_sales df d s tp).snd = setColVals df di dvals := by
              simp [plot_total_sales, e1, e2, e3, e4]
            rw [hsnd]
            exact getColVals_setColVals_ne df d c di dvals e1 hcd hlen1
          | some periods =>
            have hlen2 : (periods.map Value.str).length = df.rows.length := by
              rw [List.length_map, periodsOf_length tp dvals periods e4, ← hlen1,
                parseDateVals_length _ _ e3, valsAt_length]
            cases e5 : valuesAsQ (valsAt (setOrAppendCol (setColVals df di dvals)
                "selected_time_period" (periods.map Value.str)) si) with
            | none =>
              have hsnd : (plot_total_sales df d s tp).snd =
                  setOrAppendCol (setColVals df di dvals) "selected_time_period"
                    (periods.map Value.str) := by
                simp [plot_total_sales, e1, e2, e3, e4, e5]
              rw [hsnd]
              exact mutated_table_other_cols df d c di dvals _ e1 hrect hc hcd hch
                hlen1 hlen2
            | some sales =>
              have hsnd : (plot_total_sales df d s tp).snd =
                  setOrAppendCol (setColVals df di dvals) "selected_time_period"
                    (periods.map Value.str) := by
                simp [plot_total_sales, e1, e2, e3, e4, e5]
              rw [hsnd]
              exact mutated_table_other_cols df d c di dvals _ e1 hrect hc hcd hch
                hlen1 hlen2
  · intro df p d co s tp c0 hrect hc hcd hch
    cases e1 : df.colIdx s with
    | none =>
      cases e2 : df.colIdx co <;> cases e3 : df.colIdx d <;> cases e4 : df.colIdx p <;>
        simp [plot_top_products, e1, e2, e3, e4]
    | some si =>
      cases e2 : df.colIdx co with
      | none =>
        cases e3 : df.colIdx d <;> cases e4 : df.colIdx p <;>
          simp [plot_top_products, e1, e2, e3, e4]
      | some ci =>
        cases e3 : df.colIdx d with
        | none =>
          cases e4 : df.colIdx p <;> simp [plot_top_products, e1, e2, e3, e4]
        | some di =>
          cases e4 : df.colIdx p with
          | none => simp [plot_top_products, e1, e2, e3, e4]
          | some pj =>
            cases e5 : parseDateVals (valsAt df di) with
            | none => simp [plot_top_products, e1, e2, e3, e4, e5]
            | some dvals =>
              have hlen1 : dvals.length = df.rows.length := by
                rw [parseDateVals_length _ _ e5, valsAt_length]
              cases e6 : periodsOf tp dvals with
              | none =>
                have hsnd : (plot_top_products df p d co s tp).snd =
                    setColVals df di dvals := by
                  simp [plot_top_products, e1, e2, e3, e4, e5, e6]
                rw [hsnd]
                exact getColVals_setColVals_ne df d c0 di dvals e3 hcd hlen1
              | some periods =>
                have hlen2 : (periods.map Value.str).length = df.rows.length := by
                  rw [List.length_map, periodsOf_length tp dvals periods e6, ← hlen1,
                    parseDateVals_length _ _ e5, valsAt_length]
                cases e7 : valuesAsQ (valsAt (setOrAppendCol (setColVals df di dvals)
                    "selected_time_period" (periods.map Value.str)) si) with
                | none =>
                  have hsnd : (plot_top_products df p d co s tp).snd =
                      setOrAppendCol (setColVals df di dvals) "selected_time_period"
                        (periods.map Value.str) := by
                    simp [plot_top_products, e1, e2, e3, e4, e5, e6, e7]
                  rw [hsnd]
                  exact mutated_table_other_cols df d c0 di dvals _ e3 hrect hc hcd hch
                    hlen1 hlen2
                | some sales =>
                  have hsnd : (plot_top_products df p d co s tp).snd =
                      setOrAppendCol (setColVals df di dvals) "selected_time_period"
                        (periods.map Value.str) := by
                    simp [plot_top_products, e1, e2, e3, e4, e5, e6, e7]
                  rw [hsnd]
                  exact mutated_table_other_cols df d c0 di dvals _ e3 hrect hc hcd hch
                    hlen1 hlen2
  · intro df d s tp di si dvals periods h1 h2 h3 h4
    cases e5 : valuesAsQ (valsAt (setOrAppendCol (setColVals df di dvals)
        "selected_time_period" (periods.map Value.str)) si) with
    | none => simp [plot_total_sales, h1, h2, h3, h4, e5]
    | some sales => simp [plot_total_sales, h1, h2, h3, h4, e5]

theorem chart_builder_mutation_amended_spec_witness :
    ((plot_total_sales ⟨["D", "S"], [[Value.str "2023-01-05", Value.num 10]]⟩
        "D" "S" "M").snd).getColVals "S" =
      (⟨["D", "S"], [[Value.str "2023-01-05", Value.num 10]]⟩ : Table).getColVals "S" ∧
    (plot_dealsize_trends ⟨["D", "S"], [[Value.str "2023-01-05", Value.num 10]]⟩
        "S" "D").snd = ⟨["D", "S"], [[Value.str "2023-01-05", Value.num 10]]⟩ :=
  ⟨chart_builder_mutation_amended_spec.2.2.2.2.2.2.2.1
      ⟨["D", "S"], [[Value.str "2023-01-05", Value.num 10]]⟩ "D" "S" "M" "S"
      (fun r hr => by rw [List.mem_singleton] at hr; subst hr; rfl)
      (by decide) (by decide) (by decide),
   chart_builder_mutation_amended_spec.2.2.2.2.2.1
      ⟨["D", "S"], [[Value.str "2023-01-05", Value.num 10]]⟩ "S" "D"⟩

/-! ## Shared lemmas about the cleaning stage -/

theorem cleanFlags_cols (t : Table) (dn dd : Bool) : (cleanFlags t dn dd).cols = t.cols := by
  cases dn <;> cases dd <;> rfl

/-! ## C10 -/

/-- C10: `clean_data` called with default arguments (no columns to drop,
`drop_na = false`, `drop_duplicates = false`) is the identity: it returns
the table unchanged, same columns and same rows in the same order. -/
theorem clean_data_default_identity_spec :
    ∀ t : Table, clean_data t none false false = Except.ok t :=
  fun _ => rfl

/-! ## C1 -/

/-- C1: for every table and column list, `clean_data` returns a table whose
column set is the input's columns minus the dropped names, fails with the
MissingColumn condition when any requested name is not a column, and
removes no column when the list is empty or absent. -/
theorem clean_data_drop_columns_spec :
    ∀ (t : Table) (cs : List String) (dn dd : Bool),
      ((∀ c ∈ cs, c ∈ t.cols) →
        ∃ u, clean_data t (some cs) dn dd = Except.ok u ∧
          u.cols = t.cols.filter (fun c => decide (c ∉ cs)) ∧
          (∀ c, c ∈ u.cols ↔ (c ∈ t.cols ∧ c ∉ cs))) ∧
      ((∃ c ∈ cs, c ∉ t.cols) →
        clean_data t (some cs) dn dd = Except.error CleanError.missingColumn) ∧
      (∃ u0, clean_data t none dn dd = Except.ok u0 ∧ u0.cols = t.cols) ∧
      clean_data t (some []) dn dd = clean_data t none dn dd := by
  intro t cs dn dd
  refine ⟨?_, ?_, ⟨cleanFlags t dn dd, rfl, cleanFlags_cols t dn dd⟩, rfl⟩
  · intro hall
    by_cases hcs : cs = []
    · subst hcs
      refine ⟨cleanFlags t dn dd, rfl, ?_, ?_⟩
      · rw [cleanFlags_cols]
        symm
        apply List.filter_eq_self.mpr
        intro a _
        simp
      · intro c
        rw [cleanFlags_cols]
        simp
    · have hempty : cs.isEmpty = false := by
        cases cs with
        | nil => exact absurd rfl hcs
        | cons a l => rfl
      have hall2 : (cs.all fun c => decide (c ∈ t.cols)) = true := by
        rw [List.all_eq_true]
        intro c hc
        exact decide_eq_true (hall c hc)
      refine ⟨cleanFlags ⟨t.cols.filter (fun c => decide (c ∉ cs)),
        t.rows.map (projRow t.cols cs)⟩ dn dd, ?_, ?_, ?_⟩
      · simp [clean_data, hempty, dropColumns, hall2]
      · rw [cleanFlags_cols]
      · intro c
        rw [cleanFlags_cols]
        simp [List.mem_filter]
  · rintro ⟨c, hc, hnc⟩
    have hempty : cs.isEmpty = false := by
      cases cs with
      | nil => exact absurd hc (List.not_mem_nil c)
      | cons a l => rfl
    have hall2 : (cs.all fun c => decide (c ∈ t.cols)) = false := by
      rw [Bool.eq_false_iff]
      intro htrue
      rw [List.all_eq_true] at htrue
      exact hnc (of_decide_eq_true (htrue c hc))
    simp [clean_data, hempty, dropColumns, hall2]

theorem clean_data_drop_columns_spec_witness :
    (∃ u, clean_data ⟨["A", "B"], [[Value.num 1, Value.num 2]]⟩ (some ["B"]) false false =
        Except.ok u ∧
      u.cols = ["A", "B"].filter (fun c => decide (c ∉ ["B"])) ∧
      (∀ c, c ∈ u.cols ↔ (c ∈ ["A", "B"] ∧ c ∉ ["B"]))) ∧
    clean_data ⟨["A", "B"], [[Value.num 1, Value.num 2]]⟩ (some ["C"]) false false =
      Except.error CleanError.missingColumn :=
  ⟨(clean_data_drop_columns_spec ⟨["A", "B"], [[Value.num 1, Value.num 2]]⟩ ["B"] false false).1
      (by decide),
   (clean_data_drop_columns_spec ⟨["A", "B"], [[Value.num 1, Value.num 2]]⟩ ["C"] false false).2.1
      ⟨"C", by decide, by decide⟩⟩

/-! ## C2 -/

theorem dedupKeepFirst_sublist (l : List (List Value)) : List.Sublist (dedupKeepFirst l) l := by
  induction l with
  | nil => simp [dedupKeepFirst]
  | cons r rs ih =>
    simp only [dedupKeepFirst]
    exact List.Sublist.cons₂ r ((List.filter_sublist _).trans ih)

theorem dedupKeepFirst_nodup (l : List (List Value)) : (dedupKeepFirst l).Nodup := by
  induction l with
  | nil => simp [dedupKeepFirst]
  | cons r rs ih =>
    simp only [dedupKeepFirst]
    rw [List.nodup_cons]
    refine ⟨?_, ih.filter _⟩
    intro hmem
    rw [List.mem_filter] at hmem
    exact absurd rfl (of_decide_eq_true hmem.2)

theorem dedupKeepFirst_mem (l : List (List Value)) (x : List Value) :
    x ∈ dedupKeepFirst l ↔ x ∈ l := by
  induction l with
  | nil => simp [dedupKeepFirst]
  | cons r rs ih =>
    simp only [dedupKeepFirst, List.mem_cons, List.mem_filter, ih, decide_eq_true_eq]
    constructor
    · rintro (h | ⟨h, _⟩)
      · exact Or.inl h
      · exact Or.inr h
    · rintro (h | h)
      · exact Or.inl h
      · by_cases hx : x = r
        · exact Or.inl hx
        · exact Or.inr ⟨h, hx⟩

theorem dedupKeepFirst_append_singleton (l : List (List Value)) (x : List Value) :
    dedupKeepFirst (l ++ [x]) =
      if x ∈ l then dedupKeepFirst l else dedupKeepFirst l ++ [x] := by
  induction l with
  | nil => simp [dedupKeepFirst]
  | cons k ks ih =>
    have hstep : dedupKeepFirst ((k :: ks) ++ [x]) =
        k :: (dedupKeepFirst (ks ++ [x])).filter (fun y => decide (y ≠ k)) := rfl
    rw [hstep, ih]
    by_cases hx : x ∈ ks
    · rw [if_pos hx, if_pos (List.mem_cons_of_mem k hx)]
      rfl
    · rw [if_neg hx]
      by_cases hxk : x = k
      · subst hxk
        rw [if_pos (List.mem_cons_self _ _), List.filter_append]
        simp [dedupKeepFirst]
      · rw [if_neg (by simp [hxk, hx]), List.filter_append]
        simp [dedupKeepFirst, hxk]

/-- C2: `clean_data` applies its steps in the fixed order drop columns,
then drop rows with nulls, then drop duplicates; duplicate removal keeps
the first occurrence (a later copy of an earlier row is dropped, an
unseen row is kept) and compares rows only on the columns remaining after
the drop step, so two rows differing only in a dropped column count as
duplicates and only the first survives. -/
theorem clean_data_order_and_dedup_spec :
    (∀ (t : Table) (cs : List String), cs ≠ [] →
      clean_data t (some cs) true true =
        (dropColumns t cs).map (fun t1 => dropDupRows (dropNaRows t1))) ∧
    (∀ l : List (List Value),
      List.Sublist (dedupKeepFirst l) l ∧ (dedupKeepFirst l).Nodup ∧
      ∀ x, x ∈ dedupKeepFirst l ↔ x ∈ l) ∧
    (∀ (l : List (List Value)) (x : List Value),
      dedupKeepFirst (l ++ [x]) =
        if x ∈ l then dedupKeepFirst l else dedupKeepFirst l ++ [x]) ∧
    (∀ (cols cs : List String) (r1 r2 : List Value), cs ≠ [] →
      (∀ c ∈ cs, c ∈ cols) →
      projRow cols cs r1 = projRow cols cs r2 →
      rowHasNull (projRow cols cs r1) = false →
      clean_data ⟨cols, [r1, r2]⟩ (some cs) true true =
        Except.ok ⟨cols.filter (fun c => decide (c ∉ cs)), [projRow cols cs r1]⟩) := by
  refine ⟨?_, fun l => ⟨dedupKeepFirst_sublist l, dedupKeepFirst_nodup l,
    dedupKeepFirst_mem l⟩, dedupKeepFirst_append_singleton, ?_⟩
  · intro t cs hcs
    have hempty : cs.isEmpty = false := by
      cases cs with
      | nil => exact absurd rfl hcs
      | cons a l => rfl
    simp only [clean_data, hempty]
    cases h : dropColumns t cs with
    | error e => simp [Except.map]
    | ok t1 => simp [Except.map, cleanFlags]
  · intro cols cs r1 r2 hcs hsub hproj hnull
    have hempty : cs.isEmpty = false := by
      cases cs with
      | nil => exact absurd rfl hcs
      | cons a l => rfl
    have hall2 : (cs.all fun c => decide (c ∈ cols)) = true := by
      rw [List.all_eq_true]
      intro c hc
      exact decide_eq_true (hsub c hc)
    simp only [clean_data, hempty, dropColumns, hall2, if_true, Bool.false_eq_true,
      ite_false, cleanFlags, dropNaRows, dropDupRows, List.map_cons, List.map_nil,
      List.filter_cons, List.filter_nil]
    rw [← hproj]
    simp [hnull, dedupKeepFirst]

theorem clean_data_order_and_dedup_spec_witness :
    clean_data ⟨["A", "B"], [[Value.num 1, Value.num 2], [Value.num 1, Value.num 3]]⟩
        (some ["B"]) true true =
      Except.ok ⟨["A", "B"].filter (fun c => decide (c ∉ ["B"])),
        [projRow ["A", "B"] ["B"] [Value.num 1, Value.num 2]]⟩ :=
  clean_data_order_and_dedup_spec.2.2.2 ["A", "B"] ["B"]
    [Value.num 1, Value.num 2] [Value.num 1, Value.num 3]
    (by decide) (by decide) (by decide) (by decide)

/-! ## C3 -/

/-- C3: `add_new_column` fails with the DuplicateColumn condition whenever
the requested name is already a column, for every computation function, and
the check precedes any computation: the result does not depend on the
function at all in that case, so the function is never invoked. -/
theorem add_new_column_duplicate_spec :
    ∀ (t : Table) (name : String), name ∈ t.cols →
      (∀ f : RowFn, add_new_column t name f = Except.error AddColError.duplicateColumn) ∧
      (∀ f g : RowFn, add_new_column t name f = add_new_column t name g) := by
  intro t name h
  constructor
  · intro f
    simp [add_new_column, h]
  · intro f g
    simp [add_new_column, h]

theorem add_new_column_duplicate_spec_witness :
    add_new_column ⟨["profit"], [[Value.num 1]]⟩ "profit" (fun _ _ => some (Value.num 2)) =
      Except.error AddColError.duplicateColumn :=
  (add_new_column_duplicate_spec ⟨["profit"], [[Value.num 1]]⟩ "profit" (by decide)).1
    (fun _ _ => some (Value.num 2))

/-! ## C4 -/

theorem digitChar_isDigit (k : Nat) (h : k < 10) : (digitChar k).isDigit = true := by
  interval_cases k <;> decide

theorem digitVal_digitChar (k : Nat) (h : k < 10) : digitVal (digitChar k) = k := by
  interval_cases k <;> decide

theorem digitChar_ne_dash (k : Nat) : digitChar k ≠ '-' := by
  unfold digitChar
  split <;> decide

theorem pad2_no_dash (n : Nat) : ∀ c ∈ pad2 n, c ≠ '-' := by
  intro c hc
  simp only [pad2, List.mem_cons, List.not_mem_nil, or_false] at hc
  rcases hc with h | h <;> subst h <;> exact digitChar_ne_dash _

theorem pad4_no_dash (n : Nat) : ∀ c ∈ pad4 n, c ≠ '-' := by
  intro c hc
  simp only [pad4, List.mem_cons, List.not_mem_nil, or_false] at hc
  rcases hc with h | h | h | h <;> subst h <;> exact digitChar_ne_dash _

theorem parseNatChars_pad2 (n : Nat) (h : n < 100) : parseNatChars (pad2 n) = some n := by
  have ha : n / 10 % 10 < 10 := Nat.mod_lt _ (by norm_num)
  have hb : n % 10 < 10 := Nat.mod_lt _ (by norm_num)
  have hcond : (!(pad2 n).isEmpty && (pad2 n).all Char.isDigit) = true := by
    simp [pad2, digitChar_isDigit _ ha, digitChar_isDigit _ hb]
  unfold parseNatChars
  rw [if_pos hcond]
  congr 1
  simp only [pad2, List.foldl_cons, List.foldl_nil, Nat.mul_zero, Nat.zero_add,
    digitVal_digitChar _ ha, digitVal_digitChar _ hb]
  omega

theorem parseNatChars_pad4 (n : Nat) (h : n < 10000) : parseNatChars (pad4 n) = some n := by
  have ha : n / 1000 % 10 < 10 := Nat.mod_lt _ (by norm_num)
  have hb : n / 100 % 10 < 10 := Nat.mod_lt _ (by norm_num)
  have hc : n / 10 % 10 < 10 := Nat.mod_lt _ (by norm_num)
  have hd : n % 10 < 10 := Nat.mod_lt _ (by norm_num)
  have hcond : (!(pad4 n).isEmpty && (pad4 n).all Char.isDigit) = true := by
    simp [pad4, digitChar_isDigit _ ha, digitChar_isDigit _ hb,
      digitChar_isDigit _ hc, digitChar_isDigit _ hd]
  unfold parseNatChars
  rw [if_pos hcond]
  congr 1
  simp only [pad4, List.foldl_cons, List.foldl_nil, Nat.mul_zero, Nat.zero_add,
    digitVal_digitChar _ ha, digitVal_digitChar _ hb, digitVal_digitChar _ hc,
    digitVal_digitChar _ hd]
  omega

theorem splitDash_no_dash (a : List Char) (ha : ∀ c ∈ a, c ≠ '-') : splitDash a = [a] := by
  induction a with
  | nil => rfl
  | cons c rest ih =>
    have hc : c ≠ '-' := ha c (List.mem_cons_self _ _)
    have hr : splitDash rest = [rest] := ih (fun d hd => ha d (List.mem_cons_of_mem _ hd))
    simp [splitDash, hc, hr]

theorem splitDash_append_dash (a r : List Char) (ha : ∀ c ∈ a, c ≠ '-') :
    splitDash (a ++ '-' :: r) = a :: splitDash r := by
  induction a with
  | nil => simp [splitDash]
  | cons c rest ih =>
    have hc : c ≠ '-' := ha c (List.mem_cons_self _ _)
    have hr := ih (fun d hd => ha d (List.mem_cons_of_mem _ hd))
    simp [splitDash, hc, hr]

theorem daysInMonth_le (y m : Nat) : daysInMonth y m ≤ 31 := by
  unfold daysInMonth
  split_ifs <;> norm_num

/-- A valid date rendered in the dash format parses back to itself. -/
theorem parseDate_formatDate (y m d : Nat) (h : validYMD y m d = true) :
    parseDate (formatDate ⟨y, m, d⟩) = some ⟨y, m, d⟩ := by
  have hb := h
  rw [validYMD] at hb
  simp only [Bool.and_eq_true, decide_eq_true_eq] at hb
  obtain ⟨⟨⟨⟨⟨h1, h2⟩, h3⟩, h4⟩, h5⟩, h6⟩ := hb
  have hy : y < 10000 := by omega
  have hm : m < 100 := by omega
  have hd : d < 100 := by
    have := daysInMonth_le y m
    omega
  have hform : formatDateChars ⟨y, m, d⟩ = pad4 y ++ '-' :: (pad2 m ++ '-' :: pad2 d) := by
    simp [formatDateChars]
  have hsplit : splitDash (formatDateChars ⟨y, m, d⟩) = [pad4 y, pad2 m, pad2 d] := by
    rw [hform, splitDash_append_dash _ _ (pad4_no_dash y),
      splitDash_append_dash _ _ (pad2_no_dash m), splitDash_no_dash _ (pad2_no_dash d)]
  show parseDateChars (formatDateChars ⟨y, m, d⟩) = some ⟨y, m, d⟩
  simp only [parseDateChars, hsplit, parseNatChars_pad4 y hy, parseNatChars_pad2 m hm,
    parseNatChars_pad2 d hd, h, if_true]

theorem getD_set_self (v dflt : Value) : ∀ (r : List Value) (i : Nat),
    (r.set i v).getD i dflt = if i < r.length then v else r.getD i dflt := by
  intro r
  induction r with
  | nil => intro i; simp
  | cons a t ih =>
    intro i
    cases i with
    | zero => simp
    | succ j =>
      simp only [List.set_cons_succ, List.getD_cons_succ, ih j, List.length_cons]
      by_cases hj : j < t.length
      · rw [if_pos hj, if_pos (by omega)]
      · rw [if_neg hj, if_neg (by omega)]

theorem cellToDatetime_null_iff : ∀ x y : Value, cellToDatetime x = some y →
    (x = Value.null ↔ y = Value.null) := by
  intro x y h
  cases x with
  | null =>
    simp only [cellToDatetime, Option.some.injEq] at h
    simp [← h]
  | str s =>
    simp only [cellToDatetime, Option.map_eq_some'] at h
    obtain ⟨d2, _, hd⟩ := h
    subst hd
    simp
  | num q => simp [cellToDatetime] at h
  | date d =>
    simp only [cellToDatetime, Option.some.injEq] at h
    simp [← h]

theorem convertRows_none_of_fail (i : Nat) : ∀ rs : List (List Value),
    (∃ r ∈ rs, cellToDatetime (r.getD i Value.null) = none) → convertRows i rs = none := by
  intro rs
  induction rs with
  | nil =>
    rintro ⟨r, hr, _⟩
    exact absurd hr (List.not_mem_nil r)
  | cons a t ih =>
    rintro ⟨r, hr, hfail⟩
    rcases List.mem_cons.mp hr with h | h
    · subst h
      rw [List.getD_eq_getElem?_getD] at hfail
      simp [convertRows, hfail]
    · have hn := ih ⟨r, h, hfail⟩
      simp only [convertRows, hn]
      cases cellToDatetime (a.getD i Value.null) <;> rfl

theorem convertRows_forall2 (i : Nat) : ∀ rs rs2 : List (List Value),
    convertRows i rs = some rs2 →
    List.Forall₂ (fun r r2 =>
      cellToDatetime (r.getD i Value.null) = some (r2.getD i Value.null)) rs rs2 := by
  intro rs
  induction rs with
  | nil =>
    intro rs2 h
    simp only [convertRows, Option.some.injEq] at h
    subst h
    exact List.Forall₂.nil
  | cons r rest ih =>
    intro rs2 h
    simp only [convertRows] at h
    cases hc : cellToDatetime (r.getD i Value.null) with
    | none =>
      rw [hc] at h
      simp at h
    | some v =>
      rw [hc] at h
      cases hr : convertRows i rest with
      | none =>
        rw [hr] at h
        simp at h
      | some rest2 =>
        rw [hr] at h
        simp only [Option.some.injEq] at h
        subst h
        refine List.Forall₂.cons ?_ (ih rest2 hr)
        rw [getD_set_self]
        by_cases hi : i < r.length
        · rw [if_pos hi]
          exact hc
        · rw [if_neg hi]
          have hnull : r.getD i Value.null = Value.null :=
            List.getD_eq_default _ _ (by omega)
          rw [hnull]
          rfl

/-- C4: with the column present, `convert_to_datetime` fails with the
ConversionError condition as soon as any string cell of the column does not
parse under the dash format (invalid calendar dates such as 2023-02-30 do
not parse); in the error case nothing is returned, so no value is converted,
and in the success case cells convert pointwise with null cells exactly
where the input had nulls (no silent coercion to null).  A valid date
rendered in the format round-trips back to the same calendar date. -/
theorem convert_to_datetime_spec :
    (∀ (t : Table) (c : String) (i : Nat), t.colIdx c = some i →
      ((∃ r ∈ t.rows, ∃ s, r.getD i Value.null = Value.str s ∧ parseDate s = none) →
        convert_to_datetime t c = Except.error ConvError.conversionError) ∧
      (∀ u, convert_to_datetime t c = Except.ok u →
        u.cols = t.cols ∧
        List.Forall₂ (fun r r2 =>
          cellToDatetime (r.getD i Value.null) = some (r2.getD i Value.null) ∧
          (r.getD i Value.null = Value.null ↔ r2.getD i Value.null = Value.null))
          t.rows u.rows)) ∧
    (∀ y m d : Nat, validYMD y m d = true →
      parseDate (formatDate ⟨y, m, d⟩) = some ⟨y, m, d⟩) := by
  refine ⟨?_, parseDate_formatDate⟩
  intro t c i hidx
  constructor
  · rintro ⟨r, hr, s, hs, hps⟩
    have hfail : cellToDatetime (r.getD i Value.null) = none := by
      rw [hs]
      simp [cellToDatetime, hps]
    have hnone := convertRows_none_of_fail i t.rows ⟨r, hr, hfail⟩
    simp [convert_to_datetime, hidx, hnone]
  · intro u hu
    cases hrows : convertRows i t.rows with
    | none =>
      simp [convert_to_datetime, hidx, hrows] at hu
    | some rows2 =>
      simp only [convert_to_datetime, hidx, hrows, Except.ok.injEq] at hu
      subst hu
      refine ⟨rfl, ?_⟩
      exact (convertRows_forall2 i t.rows rows2 hrows).imp
        (fun r r2 h => ⟨h, cellToDatetime_null_iff _ _ h⟩)

theorem convert_to_datetime_spec_witness :
    convert_to_datetime ⟨["dates"], [[Value.str "2023-02-30"]]⟩ "dates" =
      Except.error ConvError.conversionError ∧
    parseDate (formatDate ⟨2023, 5, 17⟩) = some ⟨2023, 5, 17⟩ :=
  ⟨(convert_to_datetime_spec.1 ⟨["dates"], [[Value.str "2023-02-30"]]⟩ "dates" 0 (by decide)).1
      ⟨[Value.str "2023-02-30"], by decide, "2023-02-30", by decide, by decide⟩,
   convert_to_datetime_spec.2 2023 5 17 (by decide)⟩

/-! ## C5 -/

/-- C5: the derived DISCOUNT_PCT value of a row equals
`(MSRP - PRICEEACH) / MSRP * 100` when MSRP exceeds PRICEEACH and `0`
otherwise, and the deriving function reads only the MSRP and PRICEEACH
cells of the row: any two rows agreeing on those two lookups get the same
result. -/
theorem discount_percentage_calc_spec :
    (∀ (cols : List String) (r : List Value) (m p : ℚ),
      rowLookup cols r "MSRP" = some (Value.num m) →
      rowLookup cols r "PRICEEACH" = some (Value.num p) →
      discount_percentage_calc cols r =
        some (Value.num (if p < m then (m - p) / m * 100 else 0))) ∧
    (∀ (cols1 : List String) (r1 : List Value) (cols2 : List String) (r2 : List Value),
      rowLookup cols1 r1 "MSRP" = rowLookup cols2 r2 "MSRP" →
      rowLookup cols1 r1 "PRICEEACH" = rowLookup cols2 r2 "PRICEEACH" →
      discount_percentage_calc cols1 r1 = discount_percentage_calc cols2 r2) := by
  constructor
  · intro cols r m p hm hp
    simp [discount_percentage_calc, hm, hp, valueAsNum]
  · intro c1 r1 c2 r2 hm hp
    simp only [discount_percentage_calc, hm, hp]

theorem discount_percentage_calc_spec_witness :
    discount_percentage_calc ["MSRP", "PRICEEACH"] [Value.num 100, Value.num 75] =
      some (Value.num (if (75 : ℚ) < 100 then ((100 : ℚ) - 75) / 100 * 100 else 0)) ∧
    discount_percentage_calc ["X", "MSRP", "PRICEEACH"]
        [Value.null, Value.num 100, Value.num 75] =
      discount_percentage_calc ["MSRP", "PRICEEACH", "Y"]
        [Value.num 100, Value.num 75, Value.str "z"] :=
  ⟨discount_percentage_calc_spec.1 ["MSRP", "PRICEEACH"] [Value.num 100, Value.num 75] 100 75
      (by decide) (by decide),
   discount_percentage_calc_spec.2 ["X", "MSRP", "PRICEEACH"]
      [Value.null, Value.num 100, Value.num 75] ["MSRP", "PRICEEACH", "Y"]
      [Value.num 100, Value.num 75, Value.str "z"] (by decide) (by decide)⟩
